import Mathlib

/-!
# siamux: libp2p `MuxedConn` / `MuxedStream` over the Sia multiplexer

A shallow embedding of `siamux.go` and `stream.go`.

* The Sia multiplexer (`go.sia.tech/mux`) is not part of the repository.  Its
  API is a parameter of the development (`Engine`): every call takes the state
  of the multiplexer world and returns a result together with the next state,
  or `none` when the call never returns.
* Pointers to sessions (`*smux.Mux`) and streams (`*smux.Stream`) are handles
  into that world; a nil pointer is `none`.
* A ghost log (`World.log`) records every call on the multiplexer that has
  returned, so that "the underlying stream was not called" is a statement about
  the log.
* The buffered channel `establishCh` (capacity 1) is `Option (Option Error)`:
  `none` is the empty channel, `some err` the channel holding `err`.
* A function result is a `Res`: either the call returns, or it does not
  (parked forever, nil dereference, or loop bound of the model exhausted).
* `Close` of a stream and `Close` of a connection store flags before or after
  the point where they may park or panic; their result comes with the world and
  the object as the call leaves them, whether it returns or not.
* Statements about the content of a stream, which the package never sees, are
  made over `pipeEngine`, an instance of `Engine` in which a stream is a queue of
  frames between the two ends of a connection pair.
-/

namespace Siamux

/-! ## Values -/

/-- One byte of a Go byte slice, as a natural number. -/
abbrev Byte := Nat

/-- Go `error` values that occur in the package. -/
inductive Error where
  /-- Value `context.Canceled`. -/
  | canceled
  /-- Value `io.ErrClosedPipe`. -/
  | closedPipe
  /-- Value `io.EOF`. -/
  | eof
  /-- Value built by `errors.Errorf`, with its message. -/
  | errorf (msg : String)
  /-- Any other error raised by the multiplexer or the transport. -/
  | engine (msg : String)
  deriving DecidableEq, Repr

/-- The message of an error value (Go method `Error()`). -/
def Error.text : Error → String
  | .canceled => "context canceled"
  | .closedPipe => "io: read/write on closed pipe"
  | .eof => "EOF"
  | .errorf msg => msg
  | .engine msg => msg

/-- Go formatting of a byte slice with the verb `%v`: decimal values separated
by blanks, in square brackets. -/
def fmtBytes (bs : List Byte) : String :=
  "[" ++ " ".intercalate (bs.map toString) ++ "]"

/-- The message sent to open the stream (`var openStreamMsg = []byte{42}`). -/
def openStreamMsg : List Byte := [42]

/-- The error of `AcceptStream` for an unexpected first packet:
`errors.Errorf("siamux: expected open stream pkt %v but got %v", openStreamMsg, rxBuf)`. -/
def openStreamErr (rxBuf : List Byte) : Error :=
  .errorf ("siamux: expected open stream pkt " ++ fmtBytes openStreamMsg ++
    " but got " ++ fmtBytes rxBuf)

/-- Why a call does not return. -/
inductive Stuck where
  /-- Parked forever on a channel receive or inside a multiplexer call. -/
  | blocked
  /-- Dereference of a nil pointer (run-time panic). -/
  | nilDeref
  /-- The loop bound of the model ran out: no verdict. -/
  | outOfFuel
  deriving DecidableEq, Repr

/-- Result of a call: it returns a value, or it does not return. -/
inductive Res (α : Type) where
  | ret (a : α)
  | stuck (why : Stuck)
  deriving DecidableEq, Repr

/-- What `Read(p)` reports: the `n = data.length` bytes stored in `p[0:n]`, and
the error. -/
structure ReadResult where
  data : List Byte
  err : Option Error
  deriving DecidableEq, Repr

/-- The count `n` returned by `Read`. -/
def ReadResult.n (r : ReadResult) : Nat := r.data.length

/-- The buffer `p` after a `Read(p)` that stored `data` in its first bytes. -/
def fillBuf (p data : List Byte) : List Byte :=
  (data ++ p.drop data.length).take p.length

/-! ## The multiplexer as a parameter -/

/-- The API of `go.sia.tech/mux` used by the package, over a world state `W`,
session handles `M`, stream handles `H` and raw connections `C`.
`none` means that the call never returns. -/
structure Engine (W M H C : Type) where
  /-- Function `smux.DialAnonymous(conn)`. -/
  DialAnonymous : W → C → Option ((Option M × Option Error) × W)
  /-- Function `smux.AcceptAnonymous(conn)`. -/
  AcceptAnonymous : W → C → Option ((Option M × Option Error) × W)
  /-- Method `(*Mux).DialStream()`. -/
  DialStream : W → M → Option H × W
  /-- Method `(*Mux).AcceptStream()`. -/
  AcceptStream : W → M → Option ((Option H × Option Error) × W)
  /-- Method `(*Mux).Close()`. -/
  CloseMux : W → M → Option (Option Error × W)
  /-- Method `(*Stream).Read(p)`, with `len(p)` as argument. -/
  Read : W → H → Nat → Option (ReadResult × W)
  /-- Method `(*Stream).Write(p)`. -/
  Write : W → H → List Byte → Option ((Nat × Option Error) × W)
  /-- Method `(*Stream).Close()`. -/
  CloseStream : W → H → Option (Option Error × W)

/-- A call made on the multiplexer (ghost record). -/
inductive Call (M H : Type) where
  | dialStream (m : M)
  | acceptStream (m : M)
  | closeMux (m : M)
  | read (h : H) (len : Nat)
  | write (h : H) (p : List Byte)
  | closeStream (h : H)
  deriving DecidableEq, Repr

/-- The multiplexer world together with the ghost log of the calls on it that
have returned, oldest first. -/
structure World (W M H : Type) where
  st : W
  log : List (Call M H)
  deriving DecidableEq, Repr

variable {W M H C : Type}

/-- Call `mux.DialStream()`, logged. -/
def World.DialStream (E : Engine W M H C) (w : World W M H) (m : M) :
    Option H × World W M H :=
  let r := E.DialStream w.st m
  (r.1, ⟨r.2, w.log ++ [.dialStream m]⟩)

/-- Call `mux.AcceptStream()`, logged. -/
def World.AcceptStream (E : Engine W M H C) (w : World W M H) (m : M) :
    Res ((Option H × Option Error) × World W M H) :=
  match E.AcceptStream w.st m with
  | none => .stuck .blocked
  | some (r, st1) => .ret (r, ⟨st1, w.log ++ [.acceptStream m]⟩)

/-- Call `mux.Close()`, logged. -/
def World.CloseMux (E : Engine W M H C) (w : World W M H) (m : M) :
    Res (Option Error × World W M H) :=
  match E.CloseMux w.st m with
  | none => .stuck .blocked
  | some (r, st1) => .ret (r, ⟨st1, w.log ++ [.closeMux m]⟩)

/-- Call `strm.Read(p)` with `len(p) = len`, logged. -/
def World.Read (E : Engine W M H C) (w : World W M H) (h : H) (len : Nat) :
    Res (ReadResult × World W M H) :=
  match E.Read w.st h len with
  | none => .stuck .blocked
  | some (r, st1) => .ret (r, ⟨st1, w.log ++ [.read h len]⟩)

/-- Call `strm.Write(p)`, logged. -/
def World.Write (E : Engine W M H C) (w : World W M H) (h : H) (p : List Byte) :
    Res ((Nat × Option Error) × World W M H) :=
  match E.Write w.st h p with
  | none => .stuck .blocked
  | some (r, st1) => .ret (r, ⟨st1, w.log ++ [.write h p]⟩)

/-- Call `strm.Close()`, logged. -/
def World.CloseStream (E : Engine W M H C) (w : World W M H) (h : H) :
    Res (Option Error × World W M H) :=
  match E.CloseStream w.st h with
  | none => .stuck .blocked
  | some (r, st1) => .ret (r, ⟨st1, w.log ++ [.closeStream h]⟩)

/-- The bytes handed to `Write` on stream `h` according to a log, in order. -/
def bytesWritten [DecidableEq H] (h : H) : List (Call M H) → List Byte
  | [] => []
  | .write h1 p :: cs => if h1 = h then p ++ bytesWritten h cs else bytesWritten h cs
  | _ :: cs => bytesWritten h cs

/-! ## Channels of capacity one -/

/-- Receive `<-ch`: `none` when the channel is empty (the receiver parks),
otherwise the value and the emptied channel. -/
def chanRecv {α : Type} (ch : Option α) : Option (α × Option α) :=
  match ch with
  | none => none
  | some v => some (v, none)

/-- The statement `select { case ch <- v: default: }`: the value is stored when
the channel has room and dropped otherwise. -/
def chanTrySend {α : Type} (ch : Option α) (v : α) : Option α :=
  match ch with
  | none => some v
  | some old => some old

/-- The case of `select { case <-ctx.Done(): ... case err := <-ch: ... }` that runs. -/
inductive SelectCase (α : Type) where
  /-- No case is ready: the goroutine parks. -/
  | parked
  /-- The case `<-ctx.Done()`. -/
  | ctxDone
  /-- The case `err := <-ch`, with the received value and the channel left behind. -/
  | recv (v : α) (ch : Option α)
  deriving DecidableEq, Repr

/-- Go `select` over `ctx.Done()` and a receive from `ch`.  When both cases are
ready the run time picks one of them; `pickDone` is that pick. -/
def selectWait {α : Type} (ctxDone : Bool) (ch : Option α) (pickDone : Bool) : SelectCase α :=
  match ctxDone, chanRecv ch with
  | false, none => .parked
  | true, none => .ctxDone
  | false, some (v, ch1) => .recv v ch1
  | true, some (v, ch1) => if pickDone then .ctxDone else .recv v ch1

/-! ## stream.go -/

/-- Type `MuxedStream`: the wrapped stream and the two half-close flags. -/
structure MuxedStream (H : Type) where
  strm : Option H
  writeClosed : Bool
  readClosed : Bool
  deriving DecidableEq, Repr

/-- Function `NewMuxedStream`. -/
def NewMuxedStream (strm : Option H) : MuxedStream H :=
  { strm := strm, writeClosed := false, readClosed := false }

/-- Method `CloseWrite`. -/
def MuxedStream.CloseWrite (s : MuxedStream H) : Option Error × MuxedStream H :=
  (none, { s with writeClosed := true })

/-- Method `CloseRead`. -/
def MuxedStream.CloseRead (s : MuxedStream H) : Option Error × MuxedStream H :=
  (none, { s with readClosed := true })

/-- Method `Read(p)` with `len(p) = len`. -/
def MuxedStream.Read (E : Engine W M H C) (w : World W M H) (s : MuxedStream H) (len : Nat) :
    Res (ReadResult × World W M H) :=
  if s.readClosed then
    .ret (⟨[], some .closedPipe⟩, w)
  else
    match s.strm with
    | none => .stuck .nilDeref
    | some h => World.Read E w h len

/-- Method `Write(p)`. -/
def MuxedStream.Write (E : Engine W M H C) (w : World W M H) (s : MuxedStream H) (p : List Byte) :
    Res ((Nat × Option Error) × World W M H) :=
  if s.writeClosed then
    .ret ((0, some .closedPipe), w)
  else
    match s.strm with
    | none => .stuck .nilDeref
    | some h => World.Write E w h p

/-- Method `Close`.  Both flags are stored before `s.strm.Close()` is called, so
they are set also when that call does not return: the result comes with the
world and the stream as the call leaves them, returned or not. -/
def MuxedStream.Close (E : Engine W M H C) (w : World W M H) (s : MuxedStream H) :
    Res (Option Error) × World W M H × MuxedStream H :=
  let s1 := { s with writeClosed := true }
  let s2 := { s1 with readClosed := true }
  match s2.strm with
  | none => (.stuck .nilDeref, w, s2)
  | some h =>
    match World.CloseStream E w h with
    | .stuck why => (.stuck why, w, s2)
    | .ret (r, w1) => (.ret r, w1, s2)

/-- Method `Reset`. -/
def MuxedStream.Reset (E : Engine W M H C) (w : World W M H) (s : MuxedStream H) :
    Res (Option Error) × World W M H × MuxedStream H :=
  MuxedStream.Close E w s

/-! ## siamux.go -/

/-- Type `MuxedConn`. -/
structure MuxedConn (M : Type) where
  /-- Field `establishCh chan error` of capacity 1. -/
  establishCh : Option (Option Error)
  /-- Field `mux *smux.Mux`. -/
  mux : Option M
  /-- Field `closed atomic.Bool`. -/
  closed : Bool
  deriving DecidableEq, Repr

/-- Function `NewMuxedConn`: the value it returns.  The goroutine it starts is
the step `establish`, which runs at some later point or never. -/
def NewMuxedConn : MuxedConn M :=
  { establishCh := none, mux := none, closed := false }

/-- Function `EstablishMux`. -/
def EstablishMux (E : Engine W M H C) (w : World W M H) (conn : C) (outbound : Bool) :
    Res ((Option M × Option Error) × World W M H) :=
  if outbound then
    match E.DialAnonymous w.st conn with
    | none => .stuck .blocked
    | some (r, st1) => .ret (r, ⟨st1, w.log⟩)
  else
    match E.AcceptAnonymous w.st conn with
    | none => .stuck .blocked
    | some (r, st1) => .ret (r, ⟨st1, w.log⟩)

/-- Function `WrapMux`: the send `establishCh <- nil` on the fresh channel
stores nil at once. -/
def WrapMux (mux : Option M) : MuxedConn M :=
  { establishCh := some none, mux := mux, closed := false }

/-- Function `EstablishMuxedConn`. -/
def EstablishMuxedConn (E : Engine W M H C) (w : World W M H) (conn : C) (outbound : Bool) :
    Res ((Option (MuxedConn M) × Option Error) × World W M H) :=
  match EstablishMux E w conn outbound with
  | .stuck why => .stuck why
  | .ret ((mux, err), w1) =>
    match err with
    | some e => .ret ((none, some e), w1)
    | none => .ret ((some (WrapMux mux), none), w1)

/-- Method `WaitEstablished(ctx)`; `ctxDone` tells whether `ctx` is cancelled,
`pickDone` is the pick of `select` when both cases are ready. -/
def MuxedConn.WaitEstablished (m : MuxedConn M) (ctxDone pickDone : Bool) :
    Res ((Option M × Option Error) × MuxedConn M) :=
  match selectWait ctxDone m.establishCh pickDone with
  | .parked => .stuck .blocked
  | .ctxDone => .ret ((none, some .canceled), m)
  | .recv err ch1 =>
    let m1 := { m with establishCh := chanTrySend ch1 err }
    .ret ((m1.mux, err), m1)

/-- Method `establish`: the goroutine that establishes the muxed conn. -/
def MuxedConn.establish (E : Engine W M H C) (w : World W M H) (m : MuxedConn M) (conn : C)
    (outbound : Bool) : Res (World W M H × MuxedConn M) :=
  match EstablishMux E w conn outbound with
  | .stuck why => .stuck why
  | .ret ((mux, err), w1) =>
    let m1 := { m with mux := mux }
    .ret (w1, { m1 with establishCh := chanTrySend m1.establishCh err })

/-- Method `waitEstablish`. -/
def MuxedConn.waitEstablish (m : MuxedConn M) : Res ((Option M × Option Error) × MuxedConn M) :=
  match chanRecv m.establishCh with
  | none => .stuck .blocked
  | some (err, ch1) =>
    let m1 := { m with establishCh := chanTrySend ch1 err }
    .ret ((m1.mux, err), m1)

/-- Method `IsClosed`. -/
def MuxedConn.IsClosed (m : MuxedConn M) : Bool := m.closed

/-- Method `Close`.  The result comes with the world and the connection as the
call leaves them, returned or not.  The deferred `m.closed.Store(true)` runs
when the method returns and when it panics (the nil dereference of `mux`); it
has not run while the method is parked in `waitEstablish` or in `mux.Close()`. -/
def MuxedConn.Close (E : Engine W M H C) (w : World W M H) (m : MuxedConn M) :
    Res (Option Error) × World W M H × MuxedConn M :=
  match m.waitEstablish with
  | .stuck why => (.stuck why, w, m)
  | .ret ((mux, err), m1) =>
    match err with
    | some _ => (.ret none, w, { m1 with closed := true })
    | none =>
      match mux with
      | none => (.stuck .nilDeref, w, { m1 with closed := true })
      | some mh =>
        match World.CloseMux E w mh with
        | .stuck why => (.stuck why, w, m1)
        | .ret (r, w1) => (.ret r, w1, { m1 with closed := true })

/-- Method `OpenStream(ctx)`. -/
def MuxedConn.OpenStream (E : Engine W M H C) (w : World W M H) (m : MuxedConn M)
    (ctxDone pickDone : Bool) :
    Res ((Option (MuxedStream H) × Option Error) × World W M H × MuxedConn M) :=
  match m.WaitEstablished ctxDone pickDone with
  | .stuck why => .stuck why
  | .ret ((mux, err), m1) =>
    match err with
    | some e => .ret ((none, some e), w, m1)
    | none =>
      match mux with
      | none => .stuck .nilDeref
      | some mh =>
        let d := World.DialStream E w mh
        match d.1 with
        | none => .stuck .nilDeref
        | some h =>
          match World.Write E d.2 h openStreamMsg with
          | .stuck why => .stuck why
          | .ret ((_, werr), w2) =>
            match werr with
            | some e => .ret ((none, some e), w2, m1)
            | none => .ret ((some (NewMuxedStream (some h)), none), w2, m1)

/-- The loop `for { n, err := strm.Read(rxBuf) ... }` of `AcceptStream`, run for
at most `fuel` iterations.  It returns the error of `AcceptStream`, or nil after
the `break`. -/
def MuxedConn.AcceptStream.loop (E : Engine W M H C) :
    Nat → World W M H → H → List Byte → Res (Option Error × World W M H)
  | 0, _, _, _ => .stuck .outOfFuel
  | fuel + 1, w, strm, rxBuf =>
    match World.Read E w strm rxBuf.length with
    | .stuck why => .stuck why
    | .ret (r, w1) =>
      let rxBuf1 := fillBuf rxBuf r.data
      match r.err with
      | some e => .ret (some e, w1)
      | none =>
        if r.n ≠ 0 then
          if rxBuf1 ≠ openStreamMsg then
            .ret (some (openStreamErr rxBuf1), w1)
          else
            .ret (none, w1)
        else
          MuxedConn.AcceptStream.loop E fuel w1 strm rxBuf1

/-- Method `AcceptStream`, its read loop bounded by `fuel`. -/
def MuxedConn.AcceptStream (E : Engine W M H C) (fuel : Nat) (w : World W M H)
    (m : MuxedConn M) :
    Res ((Option (MuxedStream H) × Option Error) × World W M H × MuxedConn M) :=
  match m.waitEstablish with
  | .stuck why => .stuck why
  | .ret ((mux, err), m1) =>
    match err with
    | some e => .ret ((none, some e), w, m1)
    | none =>
      match mux with
      | none => .stuck .nilDeref
      | some mh =>
        match World.AcceptStream E w mh with
        | .stuck why => .stuck why
        | .ret ((strm, aerr), w1) =>
          match aerr with
          | some e => .ret ((none, some e), w1, m1)
          | none =>
            match strm with
            | none => .stuck .nilDeref
            | some h =>
              match MuxedConn.AcceptStream.loop E fuel w1 h [0] with
              | .stuck why => .stuck why
              | .ret (some e, w2) => .ret ((none, some e), w2, m1)
              | .ret (none, w2) => .ret ((some (NewMuxedStream (some h)), none), w2, m1)

/-- The results of `k` successive `Read` calls with buffers of `len` bytes on
the stream `h`, oldest first, and the state they lead to; `none` when one of
the calls never returns. -/
def readResults (E : Engine W M H C) : Nat → W → H → Nat → Option (List ReadResult × W)
  | 0, st, _, _ => some ([], st)
  | k + 1, st, h, len =>
    match E.Read st h len with
    | none => none
    | some (r, st1) =>
      match readResults E k st1 h len with
      | none => none
      | some (rs, st2) => some (r :: rs, st2)

/-! ## Sequences of calls -/

/-- A call on a `MuxedStream`. -/
inductive StreamOp where
  | closeRead
  | closeWrite
  | close
  | reset
  | read (len : Nat)
  | write (p : List Byte)
  deriving DecidableEq, Repr

/-- Whether the call marks the write side closed. -/
def StreamOp.closesWrite : StreamOp → Bool
  | .closeWrite => true
  | .close => true
  | .reset => true
  | _ => false

/-- Whether the call marks the read side closed. -/
def StreamOp.closesRead : StreamOp → Bool
  | .closeRead => true
  | .close => true
  | .reset => true
  | _ => false

/-- One call on a `MuxedStream`: the world and the stream as the call leaves
them, whether it returns or not.  A `Read` or `Write` that does not return
leaves both as they were. -/
def StreamOp.run (E : Engine W M H C) (w : World W M H) (s : MuxedStream H) :
    StreamOp → World W M H × MuxedStream H
  | .closeRead => (w, s.CloseRead.2)
  | .closeWrite => (w, s.CloseWrite.2)
  | .close => (s.Close E w).2
  | .reset => (s.Reset E w).2
  | .read len =>
    match s.Read E w len with
    | .stuck _ => (w, s)
    | .ret (_, w1) => (w1, s)
  | .write p =>
    match s.Write E w p with
    | .stuck _ => (w, s)
    | .ret (_, w1) => (w1, s)

/-- A sequence of calls made on a `MuxedStream` one after the other (a call
that does not return keeps its goroutine, and the later calls are made by
others): the world and the stream after the last call was made. -/
def runStreamOps (E : Engine W M H C) :
    List StreamOp → World W M H → MuxedStream H → World W M H × MuxedStream H
  | [], w, s => (w, s)
  | op :: ops, w, s => runStreamOps E ops (op.run E w s).1 (op.run E w s).2

/-- A call that waits for the establishment outcome. -/
inductive WaitCall where
  /-- Method `WaitEstablished` with a context that is never cancelled. -/
  | waitEstablished (pickDone : Bool)
  /-- Method `waitEstablish`. -/
  | waitEstablish
  deriving DecidableEq, Repr

/-- One waiting call. -/
def WaitCall.run (m : MuxedConn M) : WaitCall → Res ((Option M × Option Error) × MuxedConn M)
  | .waitEstablished pickDone => m.WaitEstablished false pickDone
  | .waitEstablish => m.waitEstablish

/-- A sequence of waiting calls: the results in order and the final connection.
A call that does not return leaves the connection as it found it. -/
def runWaits : List WaitCall → MuxedConn M → List (Res (Option M × Option Error)) × MuxedConn M
  | [], m => ([], m)
  | c :: cs, m =>
    match c.run m with
    | .stuck why =>
      let rest := runWaits cs m
      (.stuck why :: rest.1, rest.2)
    | .ret (r, m1) =>
      let rest := runWaits cs m1
      (.ret r :: rest.1, rest.2)

/-- A call on a `MuxedConn`, or the step of its establishing goroutine. -/
inductive ConnOp (C : Type) where
  | establish (conn : C) (outbound : Bool)
  | waitEstablished (ctxDone pickDone : Bool)
  | waitEstablish
  | isClosed
  | close
  | openStream (ctxDone pickDone : Bool)
  | acceptStream (fuel : Nat)
  deriving DecidableEq, Repr

/-- Whether the call is `Close`. -/
def ConnOp.isClose : ConnOp C → Bool
  | .close => true
  | _ => false

/-- One call on a `MuxedConn`: the world and the connection as the call leaves
them, whether it returns or not.  `Close` hands back its own state; any other
call that does not return leaves the fields of the connection as they were. -/
def ConnOp.run (E : Engine W M H C) (w : World W M H) (m : MuxedConn M) :
    ConnOp C → World W M H × MuxedConn M
  | .establish conn outbound =>
    match m.establish E w conn outbound with
    | .stuck _ => (w, m)
    | .ret (w1, m1) => (w1, m1)
  | .waitEstablished ctxDone pickDone =>
    match m.WaitEstablished ctxDone pickDone with
    | .stuck _ => (w, m)
    | .ret (_, m1) => (w, m1)
  | .waitEstablish =>
    match m.waitEstablish with
    | .stuck _ => (w, m)
    | .ret (_, m1) => (w, m1)
  | .isClosed => (w, m)
  | .close => (m.Close E w).2
  | .openStream ctxDone pickDone =>
    match m.OpenStream E w ctxDone pickDone with
    | .stuck _ => (w, m)
    | .ret (_, w1, m1) => (w1, m1)
  | .acceptStream fuel =>
    match m.AcceptStream E fuel w with
    | .stuck _ => (w, m)
    | .ret (_, w1, m1) => (w1, m1)

/-- A sequence of calls made on a `MuxedConn` one after the other (a call that
does not return keeps its goroutine, and the later calls are made by others):
the world and the connection after the last call was made. -/
def runConnOps (E : Engine W M H C) :
    List (ConnOp C) → World W M H → MuxedConn M → World W M H × MuxedConn M
  | [], w, m => (w, m)
  | op :: ops, w, m => runConnOps E ops (op.run E w m).1 (op.run E w m).2

/-! ## A reader that reads to the end -/

/-- Modelled from the spec: the consumer that "reads until end-of-stream"
(`io.ReadAll` in `TestSiaMux`, not part of the package).  With buffers of
`bufLen` bytes and at most `fuel` reads it collects what `Read` delivers until
an error, and `io.EOF` ends the loop without being reported. -/
def ReadAll (E : Engine W M H C) :
    Nat → World W M H → MuxedStream H → Nat → List Byte →
      Res ((List Byte × Option Error) × World W M H)
  | 0, _, _, _, _ => .stuck .outOfFuel
  | fuel + 1, w, s, bufLen, acc =>
    match s.Read E w bufLen with
    | .stuck why => .stuck why
    | .ret (r, w1) =>
      match r.err with
      | some e =>
        if e = .eof then .ret ((acc ++ r.data, none), w1) else .ret ((acc ++ r.data, some e), w1)
      | none => ReadAll E fuel w1 s bufLen (acc ++ r.data)

/-! ## A reliable, order-preserving byte pipe -/

/-- The two ends of a connected pair. -/
inductive Side where
  | A
  | B
  deriving DecidableEq, Repr

/-- The other end. -/
def Side.peer : Side → Side
  | .A => .B
  | .B => .A

/-- Modelled from the spec: the stream of the multiplexer, which is not part of
the repository, as the "reliable order-preserving byte pipe" between the two
ends of a connection pair.  The bytes are frames in flight: every `Write` queues
its bytes as one frame, a `Read` takes bytes from the oldest frame. -/
structure Pipe where
  /-- Frames written by `B` that `A` has not read yet. -/
  toA : List (List Byte)
  /-- Frames written by `A` that `B` has not read yet. -/
  toB : List (List Byte)
  /-- Whether `A` has closed its end of the stream. -/
  closedA : Bool
  /-- Whether `B` has closed its end of the stream. -/
  closedB : Bool
  deriving DecidableEq, Repr

/-- The frames that end `s` can read. -/
def Pipe.inbound (p : Pipe) : Side → List (List Byte)
  | .A => p.toA
  | .B => p.toB

/-- Replace the frames that end `s` can read. -/
def Pipe.setInbound (p : Pipe) (s : Side) (q : List (List Byte)) : Pipe :=
  match s with
  | .A => { p with toA := q }
  | .B => { p with toB := q }

/-- Whether end `s` has closed the stream. -/
def Pipe.closedBy (p : Pipe) : Side → Bool
  | .A => p.closedA
  | .B => p.closedB

/-- Mark the stream closed by end `s`. -/
def Pipe.setClosed (p : Pipe) : Side → Pipe
  | .A => { p with closedA := true }
  | .B => { p with closedB := true }

/-- The bytes that end `s` has still to read, in order. -/
def Pipe.content (p : Pipe) (s : Side) : List Byte := (p.inbound s).flatten

/-- Modelled from the spec: a `Read` of the multiplexer stream with a buffer of
`len` bytes at end `s`.  It takes at most `len` bytes from the oldest frame (an
empty frame gives a read of length zero); with no frame left it reports `io.EOF`
if the peer has closed and parks otherwise. -/
def Pipe.read (p : Pipe) (s : Side) (len : Nat) : Option (ReadResult × Pipe) :=
  match p.inbound s with
  | [] => if p.closedBy s.peer then some (⟨[], some .eof⟩, p) else none
  | f :: fs =>
    if f.drop len = [] then some (⟨f.take len, none⟩, p.setInbound s fs)
    else some (⟨f.take len, none⟩, p.setInbound s (f.drop len :: fs))

/-- Modelled from the spec: a `Write` of the multiplexer stream at end `s`.  It
is refused once `s` has closed the stream, otherwise the bytes are queued for
the peer as one frame. -/
def Pipe.write (p : Pipe) (s : Side) (data : List Byte) : Option ((Nat × Option Error) × Pipe) :=
  if p.closedBy s then some ((0, some .closedPipe), p)
  else some ((data.length, none), p.setInbound s.peer (p.inbound s.peer ++ [data]))

/-- Modelled from the spec: the multiplexer engine over a `Pipe`.  A session of
end `s` has the handle `s`, and so has its stream; the handshake of a session
succeeds at once; a session accepts the stream once a frame has arrived (the
"lazy open" that the marker is there to force). -/
def pipeEngine : Engine Pipe Side Side Side where
  DialAnonymous := fun p c => some ((some c, none), p)
  AcceptAnonymous := fun p c => some ((some c, none), p)
  DialStream := fun p m => (some m, p)
  AcceptStream := fun p m => if p.inbound m = [] then none else some ((some m, none), p)
  CloseMux := fun p _ => some (none, p)
  Read := Pipe.read
  Write := Pipe.write
  CloseStream := fun p s => some (none, p.setClosed s)

/-- A bound on the number of reads that drain the frames `q` with buffers of at
least one byte: every read takes a byte or removes a frame. -/
def readBound (q : List (List Byte)) : Nat := (q.map (fun f => f.length + 1)).sum

/-- The pipe with nothing in flight. -/
def Pipe.empty : Pipe := { toA := [], toB := [], closedA := false, closedB := false }

/-- A world over the pipe with an empty log. -/
def pipeWorld (p : Pipe) : World Pipe Side Side := { st := p, log := [] }

/-- The bytes of `"hello"`, written by the client in `TestSiaMux`. -/
def helloBytes : List Byte := [104, 101, 108, 108, 111]

/-- The bytes of `"hello world from server"`, written by the server in `TestSiaMux`. -/
def serverBytes : List Byte :=
  [104, 101, 108, 108, 111, 32, 119, 111, 114, 108, 100, 32, 102, 114, 111, 109, 32,
    115, 101, 114, 118, 101, 114]

/-- A multiplexer on which every call fails with the error `e`. -/
def failingEngine (e : Error) : Engine Unit Unit Unit Unit where
  DialAnonymous := fun _ _ => some ((none, some e), ())
  AcceptAnonymous := fun _ _ => some ((none, some e), ())
  DialStream := fun _ _ => (some (), ())
  AcceptStream := fun _ _ => some ((none, some e), ())
  CloseMux := fun _ _ => some (some e, ())
  Read := fun _ _ _ => some (⟨[], some e⟩, ())
  Write := fun _ _ _ => some ((0, some e), ())
  CloseStream := fun _ _ => some (some e, ())

/-- A multiplexer whose session handshake never returns, as when the peer never
answers; its other calls do not return either. -/
def hangingEngine : Engine Unit Unit Unit Unit where
  DialAnonymous := fun _ _ => none
  AcceptAnonymous := fun _ _ => none
  DialStream := fun _ _ => (none, ())
  AcceptStream := fun _ _ => none
  CloseMux := fun _ _ => none
  Read := fun _ _ _ => none
  Write := fun _ _ _ => none
  CloseStream := fun _ _ => none

/-- The world of `failingEngine` and `hangingEngine` with an empty log. -/
def unitWorld : World Unit Unit Unit := { st := (), log := [] }

/-! ## The establishment outcome is read without being taken -/

/-- A `waitEstablish` on a filled slot returns the outcome and refills the slot. -/
theorem waitEstablish_filled (err : Option Error) (mux : Option M) (closed : Bool) :
    (MuxedConn.mk (some err) mux closed).waitEstablish =
      .ret ((mux, err), MuxedConn.mk (some err) mux closed) := rfl

/-- A `waitEstablish` on an empty slot is parked. -/
theorem waitEstablish_empty (mux : Option M) (closed : Bool) :
    (MuxedConn.mk none mux closed).waitEstablish = .stuck .blocked := rfl

/-- A `WaitEstablished` whose context is not cancelled, on a filled slot,
returns the outcome and refills the slot. -/
theorem WaitEstablished_filled (err : Option Error) (mux : Option M) (closed pickDone : Bool) :
    (MuxedConn.mk (some err) mux closed).WaitEstablished false pickDone =
      .ret ((mux, err), MuxedConn.mk (some err) mux closed) := rfl

/-- Claim C5: once the slot holds the outcome `err` (nil for success, with the
session in `mux`), every call of any sequence of `WaitEstablished` (context never
cancelled) and `waitEstablish` returns `(mux, err)`, and the connection, slot
included, is afterwards what it was before. -/
theorem C5_outcome_is_peeked (mux : Option M) (err : Option Error) (closed : Bool)
    (calls : List WaitCall) :
    runWaits calls (MuxedConn.mk (some err) mux closed) =
      (calls.map (fun _ => Res.ret (mux, err)), MuxedConn.mk (some err) mux closed) := by
  induction calls with
  | nil => rfl
  | cons c cs ih =>
    cases c with
    | waitEstablished pickDone =>
      simp only [runWaits, WaitCall.run, WaitEstablished_filled, ih, List.map_cons]
    | waitEstablish =>
      simp only [runWaits, WaitCall.run, waitEstablish_filled, ih, List.map_cons]

/-! ## Cancellation of `WaitEstablished` -/

/-- Claim C10: when `WaitEstablished` runs the case `<-ctx.Done()` of its
`select`, it returns no session and `context.Canceled` and leaves the connection,
slot included, exactly as it was.  A later call with a context that is not
cancelled returns the outcome held by the slot; and if the slot was still empty,
it returns the outcome that the establishing goroutine writes afterwards. -/
theorem C10_cancel_keeps_outcome (E : Engine W M H C) (m : MuxedConn M) (pickDone : Bool)
    (hcase : selectWait true m.establishCh pickDone = SelectCase.ctxDone) :
    m.WaitEstablished true pickDone = .ret ((none, some .canceled), m) ∧
    (∀ err, m.establishCh = some err →
      ∀ p, m.WaitEstablished false p = .ret ((m.mux, err), m)) ∧
    (m.establishCh = none →
      ∀ w conn outbound mux err w1,
        EstablishMux E w conn outbound = .ret ((mux, err), w1) →
        m.establish E w conn outbound = .ret (w1, MuxedConn.mk (some err) mux m.closed) ∧
        ∀ p, (MuxedConn.mk (some err) mux m.closed).WaitEstablished false p =
          .ret ((mux, err), MuxedConn.mk (some err) mux m.closed)) := by
  refine ⟨?_, ?_, ?_⟩
  · simp only [MuxedConn.WaitEstablished, hcase]
  · intro err herr p
    obtain ⟨ch, mux, closed⟩ := m
    simp only at herr
    subst herr
    rfl
  · intro hempty w conn outbound mux err w1 hest
    obtain ⟨ch, mux0, closed⟩ := m
    simp only at hempty
    subst hempty
    refine ⟨?_, fun p => rfl⟩
    simp only [MuxedConn.establish, hest, chanTrySend]

/-- Witness of C10: a cancelled wait on the connection returned by
`NewMuxedConn`, then the establishment over the pipe. -/
theorem C10_cancel_keeps_outcome_witness :
    (NewMuxedConn : MuxedConn Side).WaitEstablished true false =
        .ret ((none, some .canceled), NewMuxedConn) ∧
      (NewMuxedConn : MuxedConn Side).establish pipeEngine (pipeWorld Pipe.empty) Side.A true =
        .ret (pipeWorld Pipe.empty, MuxedConn.mk (some none) (some Side.A) false) ∧
      (MuxedConn.mk (some none) (some Side.A) false).WaitEstablished false false =
        .ret ((some Side.A, none), MuxedConn.mk (some none) (some Side.A) false) :=
  have h := C10_cancel_keeps_outcome pipeEngine (NewMuxedConn : MuxedConn Side) false rfl
  have h2 := h.2.2 rfl (pipeWorld Pipe.empty) Side.A true (some Side.A) none
    (pipeWorld Pipe.empty) rfl
  ⟨h.1, h2.1, h2.2 false⟩

/-! ## `Close` and the closed flag -/

/-- With an error in the slot, `Close` returns nil and leaves the world alone. -/
theorem Close_failed (E : Engine W M H C) (w : World W M H) (m : MuxedConn M) (e : Error)
    (he : m.establishCh = some (some e)) :
    m.Close E w = (.ret none, w, { m with closed := true }) := by
  obtain ⟨ch, mux, closed⟩ := m
  simp only at he
  subst he
  rfl

/-- With nil in the slot, `Close` returns what the session's `Close` returns. -/
theorem Close_established (E : Engine W M H C) (w : World W M H) (m : MuxedConn M) (mh : M)
    (r : Option Error) (st1 : W) (hch : m.establishCh = some none) (hmux : m.mux = some mh)
    (hclose : E.CloseMux w.st mh = some (r, st1)) :
    m.Close E w =
      (.ret r, World.mk st1 (w.log ++ [Call.closeMux mh]), { m with closed := true }) := by
  obtain ⟨ch, mux, closed⟩ := m
  simp only at hch hmux
  subst hch hmux
  simp only [MuxedConn.Close, waitEstablish_filled, World.CloseMux, hclose]

/-- With an empty slot, `Close` is parked in `waitEstablish`: the deferred store
has not run, and the connection is as it was. -/
theorem Close_empty (E : Engine W M H C) (w : World W M H) (m : MuxedConn M)
    (he : m.establishCh = none) : m.Close E w = (.stuck .blocked, w, m) := by
  obtain ⟨ch, mux, closed⟩ := m
  simp only at he
  subst he
  rfl

/-- With nil in the slot and a nil session, `Close` panics on the nil
dereference, and the deferred store has set the closed flag. -/
theorem Close_nil_session (E : Engine W M H C) (w : World W M H) (m : MuxedConn M)
    (hch : m.establishCh = some none) (hmux : m.mux = none) :
    m.Close E w = (.stuck .nilDeref, w, { m with closed := true }) := by
  obtain ⟨ch, mux, closed⟩ := m
  simp only at hch hmux
  subst hch hmux
  rfl

/-- Claim C7: `Close` returns nil when the outcome in the slot is an error,
without calling the session (world and log unchanged); when the outcome is nil
it returns exactly what the session's `Close` returns, error included. -/
theorem C7_close_result (E : Engine W M H C) (w : World W M H) (m : MuxedConn M) :
    (∀ e, m.establishCh = some (some e) →
      m.Close E w = (.ret none, w, { m with closed := true })) ∧
    (∀ mh r st1, m.establishCh = some none → m.mux = some mh →
      E.CloseMux w.st mh = some (r, st1) →
      m.Close E w =
        (.ret r, World.mk st1 (w.log ++ [Call.closeMux mh]), { m with closed := true })) :=
  ⟨fun e he => Close_failed E w m e he,
   fun mh r st1 hch hmux hclose => Close_established E w m mh r st1 hch hmux hclose⟩

/-- Witness of C7: a failed establishment is swallowed, and the error of the
session's `Close` is returned unchanged. -/
theorem C7_close_result_witness :
    (MuxedConn.mk (some (some (Error.engine "handshake"))) (none : Option Unit) false).Close
        (failingEngine (.engine "boom")) unitWorld =
        (.ret none, unitWorld, MuxedConn.mk (some (some (Error.engine "handshake"))) none true) ∧
      (WrapMux (some ())).Close (failingEngine (.engine "boom")) unitWorld =
        (.ret (some (.engine "boom")), World.mk () [Call.closeMux ()],
          MuxedConn.mk (some none) (some ()) true) :=
  ⟨(C7_close_result (failingEngine (.engine "boom")) unitWorld
      (MuxedConn.mk (some (some (Error.engine "handshake"))) none false)).1 _ rfl,
   (C7_close_result (failingEngine (.engine "boom")) unitWorld (WrapMux (some ()))).2
      () (some (.engine "boom")) () rfl rfl rfl⟩

/-- A returning `waitEstablish` hands back the session field and the outcome
of the slot, and changes nothing in the connection. -/
theorem waitEstablish_ret (m m1 : MuxedConn M) (r : Option M × Option Error)
    (h : m.waitEstablish = .ret (r, m1)) :
    m1 = m ∧ m.establishCh = some r.2 ∧ r.1 = m.mux := by
  obtain ⟨ch, mux, closed⟩ := m
  cases ch with
  | none => exact absurd h (by simp [MuxedConn.waitEstablish, chanRecv])
  | some err =>
    simp only [waitEstablish_filled, Res.ret.injEq, Prod.mk.injEq] at h
    obtain ⟨h1, h2⟩ := h
    subst h1 h2
    exact ⟨rfl, rfl, rfl⟩

/-- A returning `WaitEstablished` changes nothing in the connection. -/
theorem WaitEstablished_ret (m m1 : MuxedConn M) (ctxDone pickDone : Bool)
    (r : Option M × Option Error)
    (h : m.WaitEstablished ctxDone pickDone = .ret (r, m1)) : m1 = m := by
  obtain ⟨ch, mux, closed⟩ := m
  cases ch <;> cases ctxDone <;> cases pickDone <;>
    simp_all [MuxedConn.WaitEstablished, selectWait, chanRecv, chanTrySend]

/-- A returning `establish` keeps the closed flag. -/
theorem establish_closed (E : Engine W M H C) (w w1 : World W M H) (m m1 : MuxedConn M)
    (conn : C) (outbound : Bool) (h : m.establish E w conn outbound = .ret (w1, m1)) :
    m1.closed = m.closed := by
  simp only [MuxedConn.establish] at h
  split at h
  · exact absurd h (by simp)
  · simp only [Res.ret.injEq, Prod.mk.injEq] at h
    rw [← h.2]

/-- A returning `Close` has set the closed flag. -/
theorem Close_closed (E : Engine W M H C) (w w1 : World W M H) (m m1 : MuxedConn M)
    (r : Option Error) (h : m.Close E w = (.ret r, w1, m1)) : m1.closed = true := by
  simp only [MuxedConn.Close] at h
  repeat' split at h
  all_goals
    simp only [Prod.mk.injEq] at h
    first
      | exact Res.noConfusion h.1
      | rw [← h.2.2]

/-- A `Close`, returned or not, never clears the closed flag. -/
theorem Close_keeps_closed (E : Engine W M H C) (w : World W M H) (m : MuxedConn M)
    (hm : m.closed = true) : (m.Close E w).2.2.closed = true := by
  obtain ⟨ch, mux, closed⟩ := m
  simp only at hm
  subst hm
  cases ch with
  | none => rfl
  | some err =>
    simp only [MuxedConn.Close, waitEstablish_filled]
    repeat' split
    all_goals rfl

/-- A returning `OpenStream` changes nothing in the connection. -/
theorem OpenStream_conn (E : Engine W M H C) (w w1 : World W M H) (m m1 : MuxedConn M)
    (ctxDone pickDone : Bool) (r : Option (MuxedStream H) × Option Error)
    (h : m.OpenStream E w ctxDone pickDone = .ret (r, w1, m1)) : m1 = m := by
  simp only [MuxedConn.OpenStream] at h
  split at h
  · exact absurd h (by simp)
  · rename_i hwait
    have hm := WaitEstablished_ret _ _ _ _ _ hwait
    subst hm
    repeat' split at h
    all_goals first
      | exact Res.noConfusion h
      | (simp only [Res.ret.injEq, Prod.mk.injEq] at h; exact h.2.2.symm)

/-- A returning `AcceptStream` changes nothing in the connection. -/
theorem AcceptStream_conn (E : Engine W M H C) (fuel : Nat) (w w1 : World W M H)
    (m m1 : MuxedConn M) (r : Option (MuxedStream H) × Option Error)
    (h : m.AcceptStream E fuel w = .ret (r, w1, m1)) : m1 = m := by
  simp only [MuxedConn.AcceptStream] at h
  split at h
  · exact absurd h (by simp)
  · rename_i hwait
    have hm := (waitEstablish_ret _ _ _ hwait).1
    subst hm
    repeat' split at h
    all_goals first
      | exact Res.noConfusion h
      | (simp only [Res.ret.injEq, Prod.mk.injEq] at h; exact h.2.2.symm)

/-- A call on a connection never clears the closed flag. -/
theorem ConnOp.run_closed (E : Engine W M H C) (op : ConnOp C) (w : World W M H)
    (m : MuxedConn M) (hm : m.closed = true) : (op.run E w m).2.closed = true := by
  cases op with
  | establish conn outbound =>
    simp only [ConnOp.run]
    split
    · exact hm
    · rename_i heq
      rw [establish_closed E w _ m _ conn outbound heq, hm]
  | waitEstablished ctxDone pickDone =>
    simp only [ConnOp.run]
    split
    · exact hm
    · rename_i heq
      rw [WaitEstablished_ret _ _ _ _ _ heq, hm]
  | waitEstablish =>
    simp only [ConnOp.run]
    split
    · exact hm
    · rename_i heq
      rw [(waitEstablish_ret _ _ _ heq).1, hm]
  | isClosed => exact hm
  | close => exact Close_keeps_closed E w m hm
  | openStream ctxDone pickDone =>
    simp only [ConnOp.run]
    split
    · exact hm
    · rename_i heq
      rw [OpenStream_conn E _ _ _ _ _ _ _ heq, hm]
  | acceptStream fuel =>
    simp only [ConnOp.run]
    split
    · exact hm
    · rename_i heq
      rw [AcceptStream_conn E _ _ _ _ _ _ heq, hm]

/-- A call other than `Close` never sets the closed flag. -/
theorem ConnOp.run_open (E : Engine W M H C) (op : ConnOp C) (w : World W M H)
    (m : MuxedConn M) (hop : op.isClose = false) : (op.run E w m).2.closed = m.closed := by
  cases op with
  | establish conn outbound =>
    simp only [ConnOp.run]
    split
    · rfl
    · rename_i heq
      exact establish_closed E w _ m _ conn outbound heq
  | waitEstablished ctxDone pickDone =>
    simp only [ConnOp.run]
    split
    · rfl
    · rename_i heq
      rw [WaitEstablished_ret _ _ _ _ _ heq]
  | waitEstablish =>
    simp only [ConnOp.run]
    split
    · rfl
    · rename_i heq
      rw [(waitEstablish_ret _ _ _ heq).1]
  | isClosed => rfl
  | close => exact absurd hop (by simp [ConnOp.isClose])
  | openStream ctxDone pickDone =>
    simp only [ConnOp.run]
    split
    · rfl
    · rename_i heq
      rw [OpenStream_conn E _ _ _ _ _ _ _ heq]
  | acceptStream fuel =>
    simp only [ConnOp.run]
    split
    · rfl
    · rename_i heq
      rw [AcceptStream_conn E _ _ _ _ _ _ heq]

/-- Once set, the closed flag stays set through every sequence of calls. -/
theorem runConnOps_closed (E : Engine W M H C) (ops : List (ConnOp C)) (w : World W M H)
    (m : MuxedConn M) (hm : m.closed = true) : (runConnOps E ops w m).2.closed = true := by
  induction ops generalizing w m with
  | nil => exact hm
  | cons op ops ih =>
    simp only [runConnOps]
    exact ih _ _ (ConnOp.run_closed E op w m hm)

/-- A sequence of calls without `Close` keeps the closed flag. -/
theorem runConnOps_open (E : Engine W M H C) (ops : List (ConnOp C)) (w : World W M H)
    (m : MuxedConn M) (hops : ∀ op ∈ ops, op.isClose = false) :
    (runConnOps E ops w m).2.closed = m.closed := by
  induction ops generalizing w m with
  | nil => rfl
  | cons op ops ih =>
    have hrest : ∀ o ∈ ops, o.isClose = false := fun o ho => hops o (List.mem_cons_of_mem _ ho)
    simp only [runConnOps]
    rw [ih _ _ hrest]
    exact ConnOp.run_open E op w m (hops op (List.mem_cons_self _ _))

/-- Claim C8: every `Close` that returns leaves the closed flag set, and the
flag stays set through every later sequence of calls; `Close` does return on
each of the three paths (failed establishment, session closed, session close
failed); and `IsClosed` is false on a connection made by `NewMuxedConn` or
`WrapMux` after any sequence of calls that contains no `Close`. -/
theorem C8_closed_flag (E : Engine W M H C) (w : World W M H) (m : MuxedConn M) :
    (∀ r w1 m1, m.Close E w = (.ret r, w1, m1) →
      m1.IsClosed = true ∧ ∀ ops w2, (runConnOps E ops w2 m1).2.IsClosed = true) ∧
    (∀ e, m.establishCh = some (some e) → ∃ w1 m1, m.Close E w = (.ret none, w1, m1)) ∧
    (∀ mh r st1, m.establishCh = some none → m.mux = some mh →
      E.CloseMux w.st mh = some (r, st1) → ∃ w1 m1, m.Close E w = (.ret r, w1, m1)) ∧
    (∀ ops w0, (∀ op ∈ ops, ConnOp.isClose op = false) →
      (runConnOps E ops w0 (NewMuxedConn : MuxedConn M)).2.IsClosed = false ∧
      ∀ mux, (runConnOps E ops w0 (WrapMux mux)).2.IsClosed = false) := by
  refine ⟨?_, ?_, ?_, ?_⟩
  · intro r w1 m1 h
    have hc := Close_closed E w w1 m m1 r h
    exact ⟨hc, fun ops w2 => runConnOps_closed E ops w2 m1 hc⟩
  · intro e he
    exact ⟨_, _, Close_failed E w m e he⟩
  · intro mh r st1 hch hmux hclose
    exact ⟨_, _, Close_established E w m mh r st1 hch hmux hclose⟩
  · intro ops w0 hops
    refine ⟨?_, fun mux => ?_⟩
    · simp only [MuxedConn.IsClosed]
      rw [runConnOps_open E ops w0 _ hops]
      rfl
    · simp only [MuxedConn.IsClosed]
      rw [runConnOps_open E ops w0 _ hops]
      rfl

/-- Witness of C8: the session's `Close` fails, the flag is set all the same
and stays set; without `Close` the flag is clear. -/
theorem C8_closed_flag_witness :
    (∃ w1 m1, (WrapMux (some ())).Close (failingEngine (.engine "boom")) unitWorld =
        (.ret (some (.engine "boom")), w1, m1)) ∧
      (runConnOps (failingEngine (.engine "boom"))
        [ConnOp.isClosed, ConnOp.close, ConnOp.waitEstablish] unitWorld
        (MuxedConn.mk (some none) (some ()) true)).2.IsClosed = true ∧
      (runConnOps (failingEngine (.engine "boom"))
        [ConnOp.waitEstablish, ConnOp.establish () true, ConnOp.openStream false false] unitWorld
        (NewMuxedConn : MuxedConn Unit)).2.IsClosed = false :=
  have h := C8_closed_flag (failingEngine (.engine "boom")) unitWorld (WrapMux (some ()))
  ⟨h.2.2.1 () (some (.engine "boom")) () rfl rfl rfl,
   (h.1 (some (.engine "boom")) (World.mk () [Call.closeMux ()])
      (MuxedConn.mk (some none) (some ()) true) rfl).2
      [ConnOp.isClosed, ConnOp.close, ConnOp.waitEstablish] unitWorld,
   (h.2.2.2 [ConnOp.waitEstablish, ConnOp.establish () true, ConnOp.openStream false false]
      unitWorld (by decide)).1⟩

/-- While the handshake of the session never returns, nothing that is called on
the connection changes it: the slot stays empty and the closed flag stays clear,
however often `Close` is called. -/
theorem runConnOps_hanging (ops : List (ConnOp Unit)) :
    runConnOps hangingEngine ops unitWorld (NewMuxedConn : MuxedConn Unit) =
      (unitWorld, NewMuxedConn) := by
  induction ops with
  | nil => rfl
  | cons op ops ih =>
    have hop : op.run hangingEngine unitWorld (NewMuxedConn : MuxedConn Unit) =
        (unitWorld, NewMuxedConn) := by
      cases op with
      | establish conn outbound => cases outbound <;> rfl
      | waitEstablished ctxDone pickDone => cases ctxDone <;> cases pickDone <;> rfl
      | waitEstablish => rfl
      | isClosed => rfl
      | close => rfl
      | openStream ctxDone pickDone => cases ctxDone <;> cases pickDone <;> rfl
      | acceptStream fuel => rfl
    simp only [runConnOps, hop]
    exact ih

/-- Counterexample to C9: a connection made by `NewMuxedConn` over a session
handshake that never returns.  The establishing goroutine is parked, so the slot
stays empty; `Close`, once invoked, is parked as well; and `IsClosed` is false
on the connection as the invoked `Close` leaves it, also after further calls of
`Close`. -/
theorem C9_close_parked_counterexample :
    (NewMuxedConn : MuxedConn Unit).establish hangingEngine unitWorld () true =
        .stuck .blocked ∧
      ((NewMuxedConn : MuxedConn Unit).Close hangingEngine unitWorld).1 = .stuck .blocked ∧
      ((NewMuxedConn : MuxedConn Unit).Close hangingEngine unitWorld).2.2.IsClosed = false ∧
      (runConnOps hangingEngine
        [ConnOp.establish () true, ConnOp.close, ConnOp.isClosed, ConnOp.close] unitWorld
        (NewMuxedConn : MuxedConn Unit)).2.IsClosed = false :=
  ⟨rfl, rfl, rfl, rfl⟩

/-- Claim C9, amended: `IsClosed` is true once `Close` has returned, whether the
establishment succeeded or failed.  For a connection still in the establishing
state (empty slot): once the establishing goroutine has written its outcome,
`Close` returns (given that the session's `Close` returns and that a nil outcome
comes with a session) and `IsClosed` is true afterwards. -/
theorem C9_close_after_outcome (E : Engine W M H C) (w : World W M H) (m : MuxedConn M) :
    (∀ r w1 m1, m.Close E w = (.ret r, w1, m1) → m1.IsClosed = true) ∧
    (∀ conn outbound w1 m1, m.establishCh = none →
      m.establish E w conn outbound = .ret (w1, m1) →
      (∀ mh, m1.mux = some mh → E.CloseMux w1.st mh ≠ none) →
      (m1.establishCh = some none → m1.mux ≠ none) →
      ∃ r w2 m2, m1.Close E w1 = (.ret r, w2, m2) ∧ m2.IsClosed = true) := by
  refine ⟨fun r w1 m1 h => Close_closed E w w1 m m1 r h, ?_⟩
  intro conn outbound w1 m1 hempty hest hsess hnil
  have hslot : ∃ err, m1.establishCh = some err := by
    simp only [MuxedConn.establish] at hest
    split at hest
    · exact Res.noConfusion hest
    · simp only [Res.ret.injEq, Prod.mk.injEq] at hest
      rw [← hest.2]
      simp only [hempty, chanTrySend]
      exact ⟨_, rfl⟩
  obtain ⟨err, herr⟩ := hslot
  cases err with
  | some e =>
    exact ⟨none, w1, _, Close_failed E w1 m1 e herr, rfl⟩
  | none =>
    cases hmux : m1.mux with
    | none => exact absurd hmux (hnil herr)
    | some mh =>
      cases hclose : E.CloseMux w1.st mh with
      | none => exact absurd hclose (hsess mh hmux)
      | some p =>
        obtain ⟨r, st1⟩ := p
        exact ⟨r, _, _, Close_established E w1 m1 mh r st1 herr hmux hclose, rfl⟩

/-- Witness of C9 (amended): over the pipe, after the establishment at end `B`
has written its outcome, `Close` returns and the flag is set; and after a failed
handshake `Close` returns as well, with the flag set. -/
theorem C9_close_after_outcome_witness :
    (∃ r w2 m2, (MuxedConn.mk (some none) (some Side.B) false).Close pipeEngine
        (pipeWorld Pipe.empty) = (.ret r, w2, m2) ∧ m2.IsClosed = true) ∧
      (∃ r w2 m2, (MuxedConn.mk (some (some (Error.engine "boom"))) (none : Option Unit)
        false).Close (failingEngine (.engine "boom")) unitWorld = (.ret r, w2, m2) ∧
        m2.IsClosed = true) :=
  ⟨(C9_close_after_outcome pipeEngine (pipeWorld Pipe.empty)
      (NewMuxedConn : MuxedConn Side)).2 Side.B false (pipeWorld Pipe.empty)
      (MuxedConn.mk (some none) (some Side.B) false)
      rfl rfl (fun mh _ => by simp [pipeEngine]) (fun _ => by simp),
   (C9_close_after_outcome (failingEngine (.engine "boom")) unitWorld
      (NewMuxedConn : MuxedConn Unit)).2 () true unitWorld
      (MuxedConn.mk (some (some (Error.engine "boom"))) none false)
      rfl rfl (fun mh hm => by simp at hm) (fun hc => by simp at hc)⟩

/-! ## The half-close flags of a stream -/

/-- A `Close`, returned or not, leaves the stream with both flags set. -/
theorem MuxedStream.Close_flags (E : Engine W M H C) (w : World W M H) (s : MuxedStream H) :
    (s.Close E w).2.2 = MuxedStream.mk s.strm true true := by
  simp only [MuxedStream.Close]
  repeat' split
  all_goals rfl

/-- `Close` returns what the `Close` of the stream returns. -/
theorem MuxedStream.Close_ret (E : Engine W M H C) (w : World W M H) (s : MuxedStream H)
    (h : H) (r : Option Error) (st1 : W) (hs : s.strm = some h)
    (hclose : E.CloseStream w.st h = some (r, st1)) :
    s.Close E w =
      (.ret r, World.mk st1 (w.log ++ [Call.closeStream h]), MuxedStream.mk (some h) true true) := by
  simp only [MuxedStream.Close, hs, World.CloseStream, hclose]

/-- When the `Close` of the stream never returns, `Close` is parked inside it
with both flags already set. -/
theorem MuxedStream.Close_parked (E : Engine W M H C) (w : World W M H) (s : MuxedStream H)
    (h : H) (hs : s.strm = some h) (hclose : E.CloseStream w.st h = none) :
    s.Close E w = (.stuck .blocked, w, MuxedStream.mk (some h) true true) := by
  simp only [MuxedStream.Close, hs, World.CloseStream, hclose]

/-- One call, returned or not, keeps the wrapped stream and can only set flags:
each flag afterwards is the flag before or the fact that the call closes that
side. -/
theorem StreamOp.run_flags (E : Engine W M H C) (op : StreamOp) (w : World W M H)
    (s : MuxedStream H) :
    (op.run E w s).2.strm = s.strm ∧
      (op.run E w s).2.writeClosed = (s.writeClosed || op.closesWrite) ∧
      (op.run E w s).2.readClosed = (s.readClosed || op.closesRead) := by
  cases op with
  | closeRead => simp [StreamOp.run, MuxedStream.CloseRead, StreamOp.closesWrite,
      StreamOp.closesRead]
  | closeWrite => simp [StreamOp.run, MuxedStream.CloseWrite, StreamOp.closesWrite,
      StreamOp.closesRead]
  | close =>
    simp [StreamOp.run, MuxedStream.Close_flags, StreamOp.closesWrite, StreamOp.closesRead]
  | reset =>
    simp [StreamOp.run, MuxedStream.Reset, MuxedStream.Close_flags, StreamOp.closesWrite,
      StreamOp.closesRead]
  | read len =>
    simp only [StreamOp.run]
    split <;> simp [StreamOp.closesWrite, StreamOp.closesRead]
  | write p =>
    simp only [StreamOp.run]
    split <;> simp [StreamOp.closesWrite, StreamOp.closesRead]

/-- After a sequence of calls each flag is the flag before or the fact that some
call of the sequence closes that side. -/
theorem runStreamOps_flags (E : Engine W M H C) (ops : List StreamOp) (w : World W M H)
    (s : MuxedStream H) :
    (runStreamOps E ops w s).2.strm = s.strm ∧
      (runStreamOps E ops w s).2.writeClosed =
        (s.writeClosed || ops.any StreamOp.closesWrite) ∧
      (runStreamOps E ops w s).2.readClosed =
        (s.readClosed || ops.any StreamOp.closesRead) := by
  induction ops generalizing w s with
  | nil => simp [runStreamOps]
  | cons op ops ih =>
    obtain ⟨h1, h2, h3⟩ := StreamOp.run_flags E op w s
    obtain ⟨k1, k2, k3⟩ := ih (op.run E w s).1 (op.run E w s).2
    simp only [runStreamOps]
    refine ⟨k1.trans h1, ?_, ?_⟩
    · rw [k2, h2, List.any_cons, Bool.or_assoc]
    · rw [k3, h3, List.any_cons, Bool.or_assoc]

/-- A logged call changes the world: its log is one entry longer. -/
theorem World.log_grows (w : World W M H) (st1 : W) (c : Call M H) :
    World.mk st1 (w.log ++ [c]) ≠ w := by
  intro h
  have hl := congrArg (fun x => x.log.length) h
  simp at hl

/-- On an open write side, `Write` never returns with the world untouched. -/
theorem Write_open_calls (E : Engine W M H C) (w : World W M H) (s : MuxedStream H)
    (p : List Byte) (r : Nat × Option Error) (hopen : s.writeClosed = false) :
    s.Write E w p ≠ .ret (r, w) := by
  intro h
  simp only [MuxedStream.Write, hopen, Bool.false_eq_true, if_false] at h
  split at h
  · exact Res.noConfusion h
  · simp only [World.Write] at h
    split at h
    · exact Res.noConfusion h
    · simp only [Res.ret.injEq, Prod.mk.injEq] at h
      exact World.log_grows w _ _ h.2

/-- On an open read side, `Read` never returns with the world untouched. -/
theorem Read_open_calls (E : Engine W M H C) (w : World W M H) (s : MuxedStream H)
    (len : Nat) (r : ReadResult) (hopen : s.readClosed = false) :
    s.Read E w len ≠ .ret (r, w) := by
  intro h
  simp only [MuxedStream.Read, hopen, Bool.false_eq_true, if_false] at h
  split at h
  · exact Res.noConfusion h
  · simp only [World.Read] at h
    split at h
    · exact Res.noConfusion h
    · simp only [Res.ret.injEq, Prod.mk.injEq] at h
      exact World.log_grows w _ _ h.2

/-- What `Write` and `Read` do on a stream over `h` whose flags are given by
`wc` and `rc`. -/
theorem half_close_of_flags (E : Engine W M H C) (w1 : World W M H) (h : H)
    (s1 : MuxedStream H) (wc rc : Bool) (hs : s1.strm = some h) (hw : s1.writeClosed = wc)
    (hr : s1.readClosed = rc) :
    (∀ p, s1.Write E w1 p = .ret ((0, some .closedPipe), w1) ↔ wc = true) ∧
    (∀ p, wc = false → s1.Write E w1 p = World.Write E w1 h p) ∧
    (∀ len, s1.Read E w1 len = .ret (⟨[], some .closedPipe⟩, w1) ↔ rc = true) ∧
    (∀ len, rc = false → s1.Read E w1 len = World.Read E w1 h len) := by
  refine ⟨?_, ?_, ?_, ?_⟩
  · intro p
    constructor
    · intro hret
      rw [← hw]
      cases hc : s1.writeClosed with
      | true => rfl
      | false => exact absurd hret (Write_open_calls E w1 s1 p _ hc)
    · intro hany
      simp only [MuxedStream.Write, hw, hany, if_true]
  · intro p hany
    simp only [MuxedStream.Write, hw, hany, hs, Bool.false_eq_true, if_false]
  · intro len
    constructor
    · intro hret
      rw [← hr]
      cases hc : s1.readClosed with
      | true => rfl
      | false => exact absurd hret (Read_open_calls E w1 s1 len _ hc)
    · intro hany
      simp only [MuxedStream.Read, hr, hany, if_true]
  · intro len hany
    simp only [MuxedStream.Read, hr, hany, hs, Bool.false_eq_true, if_false]

/-- Claim C6: let `CloseRead`, `CloseWrite`, `Close`, `Reset`, `Read` and `Write`
be called in any sequence `pre` on a fresh `MuxedStream` over the stream `h`,
whether these calls return or not.  Then the write flag is set exactly when
`pre` contains a `CloseWrite`, `Close` or `Reset`, and the read flag exactly when
it contains a `CloseRead`, `Close` or `Reset`.  `Write` returns
`(0, io.ErrClosedPipe)` with the world and its call log untouched exactly when
the write flag is set, and is otherwise the `Write` of the stream `h`; `Read`
likewise with the read flag.  A flag that is set stays set through every further
sequence of calls.  `CloseWrite` and `CloseRead` return nil and set their flag
only; `Close` and `Reset` set both flags first, then return what the `Close` of
the stream returns, and are parked with both flags set when it never returns. -/
theorem C6_half_close (E : Engine W M H C) (w : World W M H) (h : H) (pre : List StreamOp) :
    let after := runStreamOps E pre w (NewMuxedStream (some h))
    (after.2.strm = some h ∧ after.2.writeClosed = pre.any StreamOp.closesWrite ∧
      after.2.readClosed = pre.any StreamOp.closesRead) ∧
    (∀ p, after.2.Write E after.1 p = .ret ((0, some .closedPipe), after.1) ↔
      pre.any StreamOp.closesWrite = true) ∧
    (∀ p, pre.any StreamOp.closesWrite = false →
      after.2.Write E after.1 p = World.Write E after.1 h p) ∧
    (∀ len, after.2.Read E after.1 len = .ret (⟨[], some .closedPipe⟩, after.1) ↔
      pre.any StreamOp.closesRead = true) ∧
    (∀ len, pre.any StreamOp.closesRead = false →
      after.2.Read E after.1 len = World.Read E after.1 h len) ∧
    (∀ more,
      (after.2.writeClosed = true →
        (runStreamOps E more after.1 after.2).2.writeClosed = true) ∧
      (after.2.readClosed = true →
        (runStreamOps E more after.1 after.2).2.readClosed = true)) ∧
    (∀ s : MuxedStream H,
      s.CloseWrite = (none, MuxedStream.mk s.strm true s.readClosed) ∧
      s.CloseRead = (none, MuxedStream.mk s.strm s.writeClosed true)) ∧
    (∀ (s : MuxedStream H) (w0 : World W M H), s.strm = some h →
      (∀ r st1, E.CloseStream w0.st h = some (r, st1) →
        s.Close E w0 = (.ret r, World.mk st1 (w0.log ++ [Call.closeStream h]),
          MuxedStream.mk (some h) true true) ∧
        s.Reset E w0 = (.ret r, World.mk st1 (w0.log ++ [Call.closeStream h]),
          MuxedStream.mk (some h) true true)) ∧
      (E.CloseStream w0.st h = none →
        s.Close E w0 = (.stuck .blocked, w0, MuxedStream.mk (some h) true true) ∧
        s.Reset E w0 = (.stuck .blocked, w0, MuxedStream.mk (some h) true true))) := by
  intro after
  obtain ⟨hs, hw, hr⟩ := runStreamOps_flags E pre w (NewMuxedStream (some h))
  simp only [NewMuxedStream, Bool.false_or] at hs hw hr
  have hs1 : after.2.strm = some h := hs
  have hw1 : after.2.writeClosed = pre.any StreamOp.closesWrite := hw
  have hr1 : after.2.readClosed = pre.any StreamOp.closesRead := hr
  obtain ⟨k1, k2, k3, k4⟩ := half_close_of_flags E after.1 h after.2 _ _ hs1 hw1 hr1
  refine ⟨⟨hs1, hw1, hr1⟩, k1, k2, k3, k4, ?_, fun s => ⟨rfl, rfl⟩, ?_⟩
  · intro more
    obtain ⟨_, m2, m3⟩ := runStreamOps_flags E more after.1 after.2
    exact ⟨fun h1 => by rw [m2, h1, Bool.true_or], fun h1 => by rw [m3, h1, Bool.true_or]⟩
  · intro s w0 hstrm
    refine ⟨fun r st1 hclose => ?_, fun hclose => ?_⟩
    · exact ⟨MuxedStream.Close_ret E w0 s h r st1 hstrm hclose,
        MuxedStream.Close_ret E w0 s h r st1 hstrm hclose⟩
    · exact ⟨MuxedStream.Close_parked E w0 s h hstrm hclose,
        MuxedStream.Close_parked E w0 s h hstrm hclose⟩

/-- Witness of C6, over the pipe at end `A`.  After `Write`, `CloseRead`, `Close`
and `Reset` both flags are set and `Write` and `Read` are refused without a call
on the stream; after `CloseWrite` alone `Write` is refused and `Read` is that of
the stream; `Close` and `Reset` on a fresh stream return nil with both flags set;
and over a stream whose `Close` never returns they are parked with both flags
set. -/
theorem C6_half_close_witness :
    ((runStreamOps pipeEngine
        [StreamOp.write [7], StreamOp.closeRead, StreamOp.close, StreamOp.reset]
        (pipeWorld Pipe.empty) (NewMuxedStream (some Side.A))).2.writeClosed = true ∧
      (MuxedStream.mk (some Side.A) true true).Write pipeEngine
        (World.mk (Pipe.mk [] [[7]] true false)
          [Call.write Side.A [7], Call.closeStream Side.A, Call.closeStream Side.A]) [1] =
        .ret ((0, some .closedPipe),
          World.mk (Pipe.mk [] [[7]] true false)
            [Call.write Side.A [7], Call.closeStream Side.A, Call.closeStream Side.A]) ∧
      (MuxedStream.mk (some Side.A) true true).Read pipeEngine
        (World.mk (Pipe.mk [] [[7]] true false)
          [Call.write Side.A [7], Call.closeStream Side.A, Call.closeStream Side.A]) 4 =
        .ret (⟨[], some .closedPipe⟩,
          World.mk (Pipe.mk [] [[7]] true false)
            [Call.write Side.A [7], Call.closeStream Side.A, Call.closeStream Side.A])) ∧
      ((MuxedStream.mk (some Side.A) true false).Write pipeEngine (pipeWorld Pipe.empty) [1] =
        .ret ((0, some .closedPipe), pipeWorld Pipe.empty) ∧
      (MuxedStream.mk (some Side.A) true false).Read pipeEngine (pipeWorld Pipe.empty) 4 =
        World.Read pipeEngine (pipeWorld Pipe.empty) Side.A 4) ∧
      ((NewMuxedStream (some Side.A)).Close pipeEngine (pipeWorld Pipe.empty) =
        (.ret none, World.mk (Pipe.mk [] [] true false) ([] ++ [Call.closeStream Side.A]),
          MuxedStream.mk (some Side.A) true true) ∧
      (NewMuxedStream (some Side.A)).Reset pipeEngine (pipeWorld Pipe.empty) =
        (.ret none, World.mk (Pipe.mk [] [] true false) ([] ++ [Call.closeStream Side.A]),
          MuxedStream.mk (some Side.A) true true)) ∧
      ((NewMuxedStream (some ())).Close hangingEngine unitWorld =
        (.stuck .blocked, unitWorld, MuxedStream.mk (some ()) true true) ∧
      (NewMuxedStream (some ())).Reset hangingEngine unitWorld =
        (.stuck .blocked, unitWorld, MuxedStream.mk (some ()) true true)) :=
  have h1 := C6_half_close pipeEngine (pipeWorld Pipe.empty) Side.A
    [StreamOp.write [7], StreamOp.closeRead, StreamOp.close, StreamOp.reset]
  have h2 := C6_half_close pipeEngine (pipeWorld Pipe.empty) Side.A [StreamOp.closeWrite]
  have h3 := C6_half_close hangingEngine unitWorld () []
  ⟨⟨h1.1.2.1, (h1.2.1 [1]).2 rfl, (h1.2.2.2.1 4).2 rfl⟩,
   ⟨(h2.2.1 [1]).2 rfl, h2.2.2.2.2.1 4 rfl⟩,
   (h1.2.2.2.2.2.2.2 (NewMuxedStream (some Side.A)) (pipeWorld Pipe.empty) rfl).1
     none (Pipe.mk [] [] true false) rfl,
   (h3.2.2.2.2.2.2.2 (NewMuxedStream (some ())) unitWorld rfl).2 rfl⟩

/-! ## `OpenStream` -/

/-- When the receive case of the `select` runs, `WaitEstablished` returns the
session field and the received outcome, and the connection is unchanged. -/
theorem WaitEstablished_recv (m : MuxedConn M) (ctxDone pickDone : Bool) (err : Option Error)
    (hcase : selectWait ctxDone m.establishCh pickDone = SelectCase.recv err none) :
    m.WaitEstablished ctxDone pickDone = .ret ((m.mux, err), m) := by
  obtain ⟨ch, mux, closed⟩ := m
  cases ch <;> cases ctxDone <;> cases pickDone <;>
    simp_all [MuxedConn.WaitEstablished, selectWait, chanRecv, chanTrySend]

/-- What a returning `WaitEstablished` returns: the cancellation, or the session
field and the outcome received from the slot. -/
theorem WaitEstablished_cases (m m1 : MuxedConn M) (ctxDone pickDone : Bool)
    (r : Option M × Option Error)
    (h : m.WaitEstablished ctxDone pickDone = .ret (r, m1)) :
    (selectWait ctxDone m.establishCh pickDone = SelectCase.ctxDone ∧
      r = (none, some .canceled)) ∨
    (selectWait ctxDone m.establishCh pickDone = SelectCase.recv r.2 none ∧ r.1 = m.mux) := by
  obtain ⟨ch, mux, closed⟩ := m
  cases ch <;> cases ctxDone <;> cases pickDone <;>
    simp_all [MuxedConn.WaitEstablished, selectWait, chanRecv, chanTrySend]
  all_goals (obtain ⟨h1, _⟩ := h; subst h1; simp)

/-- The receive case of the `select` runs exactly when the slot is filled and
the cancellation case is not picked. -/
theorem selectWait_recv_iff (ctxDone pickDone : Bool) (ch : Option (Option Error))
    (err : Option Error) :
    selectWait ctxDone ch pickDone = SelectCase.recv err none ↔
      ch = some err ∧ (ctxDone = false ∨ pickDone = false) := by
  cases ch <;> cases ctxDone <;> cases pickDone <;> simp [selectWait, chanRecv]

/-- A logged `Write` returns exactly when the stream's `Write` does. -/
theorem World.Write_ret (E : Engine W M H C) (w w1 : World W M H) (h : H) (p : List Byte)
    (r : Nat × Option Error) :
    World.Write E w h p = .ret (r, w1) ↔
      ∃ st1, E.Write w.st h p = some (r, st1) ∧ w1 = World.mk st1 (w.log ++ [Call.write h p]) := by
  simp only [World.Write]
  split
  · simp_all
  · rename_i r0 st0 heq
    simp only [Res.ret.injEq, Prod.mk.injEq, heq, Option.some.injEq]
    constructor
    · rintro ⟨h1, h2⟩
      exact ⟨st0, ⟨h1, rfl⟩, h2.symm⟩
    · rintro ⟨st1, ⟨h1, h2⟩, h3⟩
      subst h2
      exact ⟨h1, h3.symm⟩

/-- A logged `Read` returns exactly when the stream's `Read` does. -/
theorem World.Read_ret (E : Engine W M H C) (w w1 : World W M H) (h : H) (len : Nat)
    (r : ReadResult) :
    World.Read E w h len = .ret (r, w1) ↔
      ∃ st1, E.Read w.st h len = some (r, st1) ∧
        w1 = World.mk st1 (w.log ++ [Call.read h len]) := by
  simp only [World.Read]
  split
  · simp_all
  · rename_i r0 st0 heq
    simp only [Res.ret.injEq, Prod.mk.injEq, heq, Option.some.injEq]
    constructor
    · rintro ⟨h1, h2⟩
      exact ⟨st0, ⟨h1, rfl⟩, h2.symm⟩
    · rintro ⟨st1, ⟨h1, h2⟩, h3⟩
      subst h2
      exact ⟨h1, h3.symm⟩

/-- The run of `OpenStream` that ends with a stream. -/
theorem OpenStream_stream (E : Engine W M H C) (w : World W M H) (m : MuxedConn M)
    (ctxDone pickDone : Bool) (mh : M) (h : H) (n : Nat) (st2 : W)
    (hcase : selectWait ctxDone m.establishCh pickDone = SelectCase.recv none none)
    (hmux : m.mux = some mh) (hdial : (E.DialStream w.st mh).1 = some h)
    (hwrite : E.Write (E.DialStream w.st mh).2 h openStreamMsg = some ((n, none), st2)) :
    m.OpenStream E w ctxDone pickDone =
      .ret ((some (NewMuxedStream (some h)), none),
        World.mk st2 (w.log ++ [Call.dialStream mh, Call.write h openStreamMsg]), m) := by
  simp [MuxedConn.OpenStream, WaitEstablished_recv m _ _ _ hcase, hmux, World.DialStream, hdial,
    World.Write, hwrite]

/-- The run of `OpenStream` in which the write of the marker fails. -/
theorem OpenStream_write_failed (E : Engine W M H C) (w : World W M H) (m : MuxedConn M)
    (ctxDone pickDone : Bool) (mh : M) (h : H) (n : Nat) (e : Error) (st2 : W)
    (hcase : selectWait ctxDone m.establishCh pickDone = SelectCase.recv none none)
    (hmux : m.mux = some mh) (hdial : (E.DialStream w.st mh).1 = some h)
    (hwrite : E.Write (E.DialStream w.st mh).2 h openStreamMsg = some ((n, some e), st2)) :
    m.OpenStream E w ctxDone pickDone =
      .ret ((none, some e),
        World.mk st2 (w.log ++ [Call.dialStream mh, Call.write h openStreamMsg]), m) := by
  simp [MuxedConn.OpenStream, WaitEstablished_recv m _ _ _ hcase, hmux, World.DialStream, hdial,
    World.Write, hwrite]

/-- The run of `OpenStream` on a failed establishment. -/
theorem OpenStream_failed (E : Engine W M H C) (w : World W M H) (m : MuxedConn M)
    (ctxDone pickDone : Bool) (e : Error)
    (hcase : selectWait ctxDone m.establishCh pickDone = SelectCase.recv (some e) none) :
    m.OpenStream E w ctxDone pickDone = .ret ((none, some e), w, m) := by
  simp [MuxedConn.OpenStream, WaitEstablished_recv m _ _ _ hcase]

/-- An `OpenStream` that returns a stream went through the receive case with a
nil outcome, dialed a stream and wrote the marker on it without error. -/
theorem OpenStream_stream_inv (E : Engine W M H C) (w w1 : World W M H) (m m1 : MuxedConn M)
    (ctxDone pickDone : Bool) (s : MuxedStream H)
    (hret : m.OpenStream E w ctxDone pickDone = .ret ((some s, none), w1, m1)) :
    ∃ mh h n st2, selectWait ctxDone m.establishCh pickDone = SelectCase.recv none none ∧
      m.mux = some mh ∧ (E.DialStream w.st mh).1 = some h ∧
      E.Write (E.DialStream w.st mh).2 h openStreamMsg = some ((n, none), st2) ∧
      s = NewMuxedStream (some h) ∧ m1 = m ∧
      w1 = World.mk st2 (w.log ++ [Call.dialStream mh, Call.write h openStreamMsg]) := by
  have hm := OpenStream_conn E w w1 m m1 ctxDone pickDone _ hret
  subst hm
  simp only [MuxedConn.OpenStream] at hret
  split at hret
  · exact Res.noConfusion hret
  · rename_i mux m2 err hwait
    have hm2 := WaitEstablished_ret _ _ _ _ _ hwait
    subst hm2
    split at hret
    · simp at hret
    · split at hret
      · exact Res.noConfusion hret
      · rename_i mh
        split at hret
        · exact Res.noConfusion hret
        · rename_i h hdial
          split at hret
          · exact Res.noConfusion hret
          · rename_i n w2 werr hwrite
            split at hret
            · simp at hret
            · simp only [Res.ret.injEq, Prod.mk.injEq, Option.some.injEq, true_and,
                and_true] at hret
              obtain ⟨hs, hw⟩ := hret
              obtain ⟨st2, hst, hw2⟩ := (World.Write_ret E _ _ _ _ _).1 hwrite
              rcases WaitEstablished_cases _ _ _ _ _ hwait with ⟨_, hc⟩ | ⟨hc, hmx⟩
              · simp at hc
              · refine ⟨mh, h, n, st2, hc, hmx.symm, hdial, hst, hs.symm, rfl, ?_⟩
                rw [← hw, hw2]
                simp [World.DialStream]

/-- The run of `OpenStream` in which the wait for the establishment returns an
error: the error is returned, and the world is not touched. -/
theorem OpenStream_wait_failed (E : Engine W M H C) (w : World W M H) (m m1 : MuxedConn M)
    (ctxDone pickDone : Bool) (mux : Option M) (e : Error)
    (hwait : m.WaitEstablished ctxDone pickDone = .ret ((mux, some e), m1)) :
    m.OpenStream E w ctxDone pickDone = .ret ((none, some e), w, m) := by
  have hm := WaitEstablished_ret _ _ _ _ _ hwait
  subst hm
  simp only [MuxedConn.OpenStream, hwait]

/-- Claim C3: `OpenStream` returns a stream exactly when a nil outcome was
received from the slot and the `Write` of the marker on the dialed stream
returned no error.  When it returns a stream, the calls it made are the dial
followed by one `Write` of the single byte 42 on the dialed stream, so the bytes
written on that stream are exactly `[42]`.  An error returned by the wait for
the establishment (the establishment error held by the slot, in particular) is
returned as it is, with no stream and with the world and its log untouched
(nothing is dialed); a failed marker write is returned as it is, with no stream. -/
theorem C3_open_stream [DecidableEq H] (E : Engine W M H C) (w : World W M H)
    (m : MuxedConn M) (ctxDone pickDone : Bool) :
    ((∃ s w1 m1, m.OpenStream E w ctxDone pickDone = .ret ((some s, none), w1, m1)) ↔
      (m.establishCh = some none ∧ (ctxDone = false ∨ pickDone = false)) ∧
        ∃ mh h n st2, m.mux = some mh ∧ (E.DialStream w.st mh).1 = some h ∧
          E.Write (E.DialStream w.st mh).2 h openStreamMsg = some ((n, none), st2)) ∧
    (∀ s w1 m1, m.OpenStream E w ctxDone pickDone = .ret ((some s, none), w1, m1) →
      ∃ mh h, m.mux = some mh ∧ s = NewMuxedStream (some h) ∧ m1 = m ∧
        w1.log = w.log ++ [Call.dialStream mh, Call.write h openStreamMsg] ∧
        bytesWritten h (w1.log.drop (w.log.length + 1)) = [42]) ∧
    (∀ mux e m1, m.WaitEstablished ctxDone pickDone = .ret ((mux, some e), m1) →
      m.OpenStream E w ctxDone pickDone = .ret ((none, some e), w, m)) ∧
    (∀ e, m.establishCh = some (some e) → (ctxDone = false ∨ pickDone = false) →
      m.OpenStream E w ctxDone pickDone = .ret ((none, some e), w, m)) ∧
    (∀ mh h n e st2, m.establishCh = some none → (ctxDone = false ∨ pickDone = false) →
      m.mux = some mh → (E.DialStream w.st mh).1 = some h →
      E.Write (E.DialStream w.st mh).2 h openStreamMsg = some ((n, some e), st2) →
      m.OpenStream E w ctxDone pickDone =
        .ret ((none, some e),
          World.mk st2 (w.log ++ [Call.dialStream mh, Call.write h openStreamMsg]), m)) := by
  refine ⟨⟨?_, ?_⟩, ?_, ?_, ?_, ?_⟩
  · rintro ⟨s, w1, m1, hret⟩
    obtain ⟨mh, h, n, st2, hcase, hmux, hdial, hwrite, _⟩ :=
      OpenStream_stream_inv E w w1 m m1 ctxDone pickDone s hret
    exact ⟨(selectWait_recv_iff _ _ _ _).1 hcase, mh, h, n, st2, hmux, hdial, hwrite⟩
  · rintro ⟨hcase, mh, h, n, st2, hmux, hdial, hwrite⟩
    exact ⟨_, _, _, OpenStream_stream E w m ctxDone pickDone mh h n st2
      ((selectWait_recv_iff _ _ _ _).2 hcase) hmux hdial hwrite⟩
  · intro s w1 m1 hret
    obtain ⟨mh, h, n, st2, _, hmux, _, _, hs, hm, hw⟩ :=
      OpenStream_stream_inv E w w1 m m1 ctxDone pickDone s hret
    refine ⟨mh, h, hmux, hs, hm, by rw [hw], ?_⟩
    rw [hw]
    simp [bytesWritten, openStreamMsg]
  · intro mux e m1 hwait
    exact OpenStream_wait_failed E w m m1 ctxDone pickDone mux e hwait
  · intro e hslot hpick
    exact OpenStream_failed E w m ctxDone pickDone e
      ((selectWait_recv_iff _ _ _ _).2 ⟨hslot, hpick⟩)
  · intro mh h n e st2 hslot hpick hmux hdial hwrite
    exact OpenStream_write_failed E w m ctxDone pickDone mh h n e st2
      ((selectWait_recv_iff _ _ _ _).2 ⟨hslot, hpick⟩) hmux hdial hwrite

/-- Witness of C3: over the pipe `OpenStream` returns a stream after writing
the marker; a failed establishment and a failed marker write come back as they are. -/
theorem C3_open_stream_witness :
    (∃ s w1 m1, (WrapMux (some Side.A)).OpenStream pipeEngine (pipeWorld Pipe.empty)
        false false = .ret ((some s, none), w1, m1)) ∧
      (MuxedConn.mk (some (some (Error.engine "handshake"))) (none : Option Side)
        false).OpenStream pipeEngine (pipeWorld Pipe.empty) false false =
        .ret ((none, some (.engine "handshake")), pipeWorld Pipe.empty,
          MuxedConn.mk (some (some (Error.engine "handshake"))) none false) ∧
      (WrapMux (some ())).OpenStream (failingEngine (.engine "boom")) unitWorld false false =
        .ret ((none, some (.engine "boom")),
          World.mk () ([] ++ [Call.dialStream (), Call.write () openStreamMsg]),
          WrapMux (some ())) :=
  ⟨(C3_open_stream pipeEngine (pipeWorld Pipe.empty) (WrapMux (some Side.A)) false false).1.2
      ⟨⟨rfl, Or.inl rfl⟩, Side.A, Side.A, 1, Pipe.mk [] [[42]] false false, rfl, rfl, rfl⟩,
   (C3_open_stream pipeEngine (pipeWorld Pipe.empty)
      (MuxedConn.mk (some (some (Error.engine "handshake"))) (none : Option Side) false)
      false false).2.2.2.1 _ rfl (Or.inl rfl),
   (C3_open_stream (failingEngine (.engine "boom")) unitWorld (WrapMux (some ()))
      false false).2.2.2.2 () () 0 (.engine "boom") () rfl (Or.inl rfl) rfl rfl rfl⟩

/-! ## `AcceptStream` and the open marker -/

/-- A read of length zero leaves the buffer as it is. -/
theorem fillBuf_nil (p : List Byte) : fillBuf p [] = p := by
  simp [fillBuf]

/-- The message of the error for an unexpected first byte `b`. -/
theorem openStreamErr_text (b : Byte) :
    (openStreamErr [b]).text =
      "siamux: expected open stream pkt [42] but got [" ++ toString b ++ "]" := by
  have h42 : fmtBytes openStreamMsg = "[42]" := by decide
  have hb : fmtBytes [b] = "[" ++ toString b ++ "]" := by
    simp [fmtBytes, String.intercalate, String.intercalate.go]
  rw [openStreamErr, Error.text, h42, hb]
  apply String.ext
  simp [String.data_append]

/-- The read loop skips reads of length zero that carry no error: after `k` of
them it is where it started, `k` iterations later, in the state they lead to. -/
theorem AcceptStream.loop_skip (E : Engine W M H C) (h : H) (buf : List Byte) (k : Nat) :
    ∀ (w : World W M H) (stk : W) (fuel : Nat),
      readResults E k w.st h buf.length = some (List.replicate k ⟨[], none⟩, stk) →
      MuxedConn.AcceptStream.loop E (fuel + k) w h buf =
        MuxedConn.AcceptStream.loop E fuel
          (World.mk stk (w.log ++ List.replicate k (Call.read h buf.length))) h buf := by
  induction k with
  | zero =>
    intro w stk fuel hreads
    simp only [readResults, Option.some.injEq, Prod.mk.injEq, true_and, List.replicate_zero]
      at hreads
    subst hreads
    simp
  | succ k ih =>
    intro w stk fuel hreads
    simp only [readResults] at hreads
    split at hreads
    · simp at hreads
    · rename_i r st1 hread
      split at hreads
      · simp at hreads
      · rename_i rs st2 hrest
        simp only [List.replicate_succ, Option.some.injEq, Prod.mk.injEq, List.cons.injEq]
          at hreads
        obtain ⟨⟨hr, hrs⟩, hst⟩ := hreads
        subst hr hrs hst
        have hstep : MuxedConn.AcceptStream.loop E (fuel + k + 1) w h buf =
            MuxedConn.AcceptStream.loop E (fuel + k)
              (World.mk st1 (w.log ++ [Call.read h buf.length])) h buf := by
          simp [MuxedConn.AcceptStream.loop, World.Read, hread, ReadResult.n, fillBuf_nil]
        have hnext := ih (World.mk st1 (w.log ++ [Call.read h buf.length])) st2 fuel hrest
        rw [show fuel + (k + 1) = fuel + k + 1 from rfl, hstep, hnext]
        simp [List.replicate_succ]

/-- The run of `AcceptStream` up to its read loop, on an established connection
whose session hands out the stream `h`. -/
theorem AcceptStream_to_loop (E : Engine W M H C) (fuel : Nat) (w : World W M H)
    (m : MuxedConn M) (mh : M) (h : H) (st0 : W)
    (hslot : m.establishCh = some none) (hmux : m.mux = some mh)
    (haccept : E.AcceptStream w.st mh = some ((some h, none), st0)) :
    m.AcceptStream E fuel w =
      match MuxedConn.AcceptStream.loop E fuel
          (World.mk st0 (w.log ++ [Call.acceptStream mh])) h [0] with
      | .stuck why => .stuck why
      | .ret (some e, w2) => .ret ((none, some e), w2, m)
      | .ret (none, w2) => .ret ((some (NewMuxedStream (some h)), none), w2, m) := by
  obtain ⟨ch, mux, closed⟩ := m
  simp only at hslot hmux
  subst hslot hmux
  simp only [MuxedConn.AcceptStream, waitEstablish_filled, World.AcceptStream, haccept]

/-- Claim C1: on an established connection whose session hands out a stream,
if the reads into the 1-byte buffer give `k` results of length zero without
error and then the byte `b` without error, with `b` different from 42, then
`AcceptStream` (with room for more than `k` iterations) returns no stream and
the error of `openStreamErr [b]`; its message names 42 and `b`. -/
theorem C1_accept_rejects_marker (E : Engine W M H C) (w : World W M H) (m : MuxedConn M)
    (mh : M) (h : H) (st0 stk st1 : W) (k fuel : Nat) (b : Byte)
    (hslot : m.establishCh = some none) (hmux : m.mux = some mh)
    (haccept : E.AcceptStream w.st mh = some ((some h, none), st0))
    (hempty : readResults E k st0 h 1 = some (List.replicate k ⟨[], none⟩, stk))
    (hbyte : E.Read stk h 1 = some (⟨[b], none⟩, st1)) (hb : b ≠ 42) (hfuel : k < fuel) :
    m.AcceptStream E fuel w =
        .ret ((none, some (openStreamErr [b])),
          World.mk st1 (w.log ++ Call.acceptStream mh :: List.replicate (k + 1) (Call.read h 1)),
          m) ∧
      (openStreamErr [b]).text =
        "siamux: expected open stream pkt [42] but got [" ++ toString b ++ "]" ∧
      "42".data <:+: (openStreamErr [b]).text.data ∧
      (toString b).data <:+: (openStreamErr [b]).text.data := by
  refine ⟨?_, openStreamErr_text b, ?_, ?_⟩
  · obtain ⟨f, rfl⟩ : ∃ f, fuel = (f + 1) + k := ⟨fuel - k - 1, by omega⟩
    rw [AcceptStream_to_loop E _ w m mh h st0 hslot hmux haccept,
      AcceptStream.loop_skip E h [0] k (World.mk st0 (w.log ++ [Call.acceptStream mh])) stk
        (f + 1) hempty]
    simp [MuxedConn.AcceptStream.loop, World.Read, hbyte, ReadResult.n, fillBuf, openStreamMsg,
      hb, List.replicate_succ', List.append_assoc]
  · rw [openStreamErr_text]
    refine ⟨"siamux: expected open stream pkt [".data,
      ("] but got [" ++ toString b ++ "]").data, ?_⟩
    simp [String.data_append]
  · rw [openStreamErr_text]
    refine ⟨"siamux: expected open stream pkt [42] but got [".data, "]".data, ?_⟩
    simp [String.data_append]

/-- Witness of C1: the peer's first byte is 1, after two empty frames. -/
theorem C1_accept_rejects_marker_witness :
    (WrapMux (some Side.B)).AcceptStream pipeEngine 3
        (pipeWorld (Pipe.mk [] [[], [], [1]] false false)) =
        .ret ((none, some (openStreamErr [1])),
          World.mk (Pipe.mk [] [] false false)
            ([] ++ Call.acceptStream Side.B :: List.replicate (2 + 1) (Call.read Side.B 1)),
          WrapMux (some Side.B)) ∧
      (openStreamErr [1]).text = "siamux: expected open stream pkt [42] but got [1]" :=
  have h := C1_accept_rejects_marker pipeEngine (pipeWorld (Pipe.mk [] [[], [], [1]] false false))
    (WrapMux (some Side.B)) Side.B Side.B (Pipe.mk [] [[], [], [1]] false false)
    (Pipe.mk [] [[1]] false false) (Pipe.mk [] [] false false) 2 3 1
    rfl rfl rfl rfl rfl (by decide) (by decide)
  ⟨h.1, h.2.1⟩

/-- A read error ends `AcceptStream` with that error, whatever the read
delivered along with it. -/
theorem AcceptStream_read_error (E : Engine W M H C) (w : World W M H) (m : MuxedConn M)
    (mh : M) (h : H) (st0 stk st1 : W) (k fuel : Nat) (d : List Byte) (e : Error)
    (hslot : m.establishCh = some none) (hmux : m.mux = some mh)
    (haccept : E.AcceptStream w.st mh = some ((some h, none), st0))
    (hempty : readResults E k st0 h 1 = some (List.replicate k ⟨[], none⟩, stk))
    (hread : E.Read stk h 1 = some (⟨d, some e⟩, st1)) (hfuel : k < fuel) :
    m.AcceptStream E fuel w =
      .ret ((none, some e),
        World.mk st1 (w.log ++ Call.acceptStream mh :: List.replicate (k + 1) (Call.read h 1)),
        m) := by
  obtain ⟨f, rfl⟩ : ∃ f, fuel = (f + 1) + k := ⟨fuel - k - 1, by omega⟩
  rw [AcceptStream_to_loop E _ w m mh h st0 hslot hmux haccept,
    AcceptStream.loop_skip E h [0] k (World.mk st0 (w.log ++ [Call.acceptStream mh])) stk
      (f + 1) hempty]
  simp [MuxedConn.AcceptStream.loop, World.Read, hread, List.replicate_succ', List.append_assoc]

/-- The run of `AcceptStream` that finds the marker: after `k` reads of length
zero and one read of the byte 42 it returns the wrapped stream, in the state
reached by these `k + 1` reads of one byte. -/
theorem AcceptStream_marker (E : Engine W M H C) (w : World W M H) (m : MuxedConn M)
    (mh : M) (h : H) (st0 stk st1 : W) (k fuel : Nat)
    (hslot : m.establishCh = some none) (hmux : m.mux = some mh)
    (haccept : E.AcceptStream w.st mh = some ((some h, none), st0))
    (hempty : readResults E k st0 h 1 = some (List.replicate k ⟨[], none⟩, stk))
    (hbyte : E.Read stk h 1 = some (⟨[42], none⟩, st1)) (hfuel : k < fuel) :
    m.AcceptStream E fuel w =
      .ret ((some (NewMuxedStream (some h)), none),
        World.mk st1 (w.log ++ Call.acceptStream mh :: List.replicate (k + 1) (Call.read h 1)),
        m) := by
  obtain ⟨f, rfl⟩ : ∃ f, fuel = (f + 1) + k := ⟨fuel - k - 1, by omega⟩
  rw [AcceptStream_to_loop E _ w m mh h st0 hslot hmux haccept,
    AcceptStream.loop_skip E h [0] k (World.mk st0 (w.log ++ [Call.acceptStream mh])) stk
      (f + 1) hempty]
  simp [MuxedConn.AcceptStream.loop, World.Read, hbyte, ReadResult.n, fillBuf, openStreamMsg,
    List.replicate_succ', List.append_assoc]

/-! ## The pipe -/

/-- The frames set for an end are the frames that end reads. -/
theorem Pipe.inbound_setInbound (p : Pipe) (s : Side) (q : List (List Byte)) :
    (p.setInbound s q).inbound s = q := by
  cases s <;> rfl

/-- Setting the frames of an end leaves the frames of the other end alone. -/
theorem Pipe.inbound_peer_setInbound (p : Pipe) (s : Side) (q : List (List Byte)) :
    (p.setInbound s q).inbound s.peer = p.inbound s.peer := by
  cases s <;> rfl

/-- Setting frames does not touch the closed marks. -/
theorem Pipe.closedBy_setInbound (p : Pipe) (s t : Side) (q : List (List Byte)) :
    (p.setInbound s q).closedBy t = p.closedBy t := by
  cases s <;> cases t <;> rfl

/-- Setting the frames that are there changes nothing. -/
theorem Pipe.setInbound_inbound (p : Pipe) (s : Side) : p.setInbound s (p.inbound s) = p := by
  cases s <;> rfl

/-- Of two settings of the frames of an end the later one stays. -/
theorem Pipe.setInbound_setInbound (p : Pipe) (s : Side) (q r : List (List Byte)) :
    (p.setInbound s q).setInbound s r = p.setInbound s r := by
  cases s <;> rfl

/-- Reads of length zero take the empty frames at the head of the queue. -/
theorem Pipe.readResults_empty (s : Side) (q : List (List Byte)) (k : Nat) :
    ∀ p : Pipe, p.inbound s = List.replicate k [] ++ q →
      readResults pipeEngine k p s 1 =
        some (List.replicate k ⟨[], none⟩, p.setInbound s q) := by
  induction k with
  | zero =>
    intro p hin
    simp only [List.replicate_zero, List.nil_append] at hin
    rw [← hin, Pipe.setInbound_inbound]
    rfl
  | succ k ih =>
    intro p hin
    have hnext : (p.setInbound s (List.replicate k [] ++ q)).inbound s =
        List.replicate k [] ++ q := Pipe.inbound_setInbound _ _ _
    have hread : pipeEngine.Read p s 1 =
        some (⟨[], none⟩, p.setInbound s (List.replicate k [] ++ q)) := by
      simp [pipeEngine, Pipe.read, hin, List.replicate_succ]
    simp only [readResults, hread, ih _ hnext, List.replicate_succ,
      Pipe.setInbound_setInbound]

/-- Reading to the end over the pipe: once the peer has closed, a reader with
buffers of at least one byte and enough reads collects exactly the bytes in
flight towards it, in order, and ends without error. -/
theorem ReadAll_pipe (s : Side) (bufLen : Nat) (hpos : 0 < bufLen) (n : Nat) :
    ∀ (p : Pipe) (log : List (Call Side Side)) (acc : List Byte) (fuel : Nat),
      readBound (p.inbound s) ≤ n → n < fuel → p.closedBy s.peer = true →
      ∃ w1, ReadAll pipeEngine fuel (World.mk p log) (NewMuxedStream (some s)) bufLen acc =
        .ret ((acc ++ p.content s, none), w1) := by
  induction n with
  | zero =>
    intro p log acc fuel hbound hfuel hclosed
    obtain ⟨f, rfl⟩ : ∃ f, fuel = f + 1 := ⟨fuel - 1, by omega⟩
    cases hin : p.inbound s with
    | nil =>
      exact ⟨World.mk p (log ++ [Call.read s bufLen]), by
        simp [ReadAll, MuxedStream.Read, NewMuxedStream, World.Read, pipeEngine,
          Pipe.read, hin, hclosed, Pipe.content]⟩
    | cons f1 fs =>
      simp [readBound, hin] at hbound
  | succ n ih =>
    intro p log acc fuel hbound hfuel hclosed
    obtain ⟨f, rfl⟩ : ∃ f, fuel = f + 1 := ⟨fuel - 1, by omega⟩
    cases hin : p.inbound s with
    | nil =>
      exact ⟨World.mk p (log ++ [Call.read s bufLen]), by
        simp [ReadAll, MuxedStream.Read, NewMuxedStream, World.Read, pipeEngine,
          Pipe.read, hin, hclosed, Pipe.content]⟩
    | cons f1 fs =>
      simp only [readBound, hin, List.map_cons, List.sum_cons] at hbound
      by_cases hdrop : f1.drop bufLen = []
      · have hb : readBound ((p.setInbound s fs).inbound s) ≤ n := by
          rw [Pipe.inbound_setInbound]
          simp only [readBound]
          omega
        have hc : (p.setInbound s fs).closedBy s.peer = true := by
          rw [Pipe.closedBy_setInbound]
          exact hclosed
        obtain ⟨w1, hw1⟩ := ih (p.setInbound s fs)
          (log ++ [Call.read s bufLen]) (acc ++ f1.take bufLen) f hb (by omega) hc
        refine ⟨w1, ?_⟩
        have htake : f1.take bufLen = f1 := by
          have := List.take_append_drop bufLen f1
          rw [hdrop, List.append_nil] at this
          exact this
        simp only [ReadAll, MuxedStream.Read, NewMuxedStream, World.Read, pipeEngine,
          Pipe.read, hin, hdrop, if_true, Bool.false_eq_true, if_false]
        simp only [NewMuxedStream, pipeEngine] at hw1
        rw [hw1]
        simp [Pipe.content, Pipe.inbound_setInbound, hin, htake]
      · have hlen : (f1.drop bufLen).length < f1.length := by
          have hne : f1 ≠ [] := by
            intro h0
            exact hdrop (by simp [h0])
          have : 0 < f1.length := List.length_pos.2 hne
          rw [List.length_drop]
          omega
        have hb : readBound ((p.setInbound s (f1.drop bufLen :: fs)).inbound s) ≤ n := by
          rw [Pipe.inbound_setInbound]
          simp only [readBound, List.map_cons, List.sum_cons]
          omega
        have hc : (p.setInbound s (f1.drop bufLen :: fs)).closedBy s.peer = true := by
          rw [Pipe.closedBy_setInbound]
          exact hclosed
        obtain ⟨w1, hw1⟩ := ih (p.setInbound s (f1.drop bufLen :: fs))
          (log ++ [Call.read s bufLen]) (acc ++ f1.take bufLen) f hb (by omega) hc
        refine ⟨w1, ?_⟩
        simp only [ReadAll, MuxedStream.Read, NewMuxedStream, World.Read, pipeEngine,
          Pipe.read, hin, hdrop, if_false, Bool.false_eq_true]
        simp only [NewMuxedStream, pipeEngine] at hw1
        rw [hw1]
        simp only [Pipe.content, Pipe.inbound_setInbound, hin, List.flatten_cons,
          List.append_assoc]
        rw [← List.append_assoc (f1.take bufLen), List.take_append_drop]

/-- Empty frames carry no bytes. -/
theorem flatten_replicate_nil (k : Nat) (q : List (List Byte)) :
    (List.replicate k ([] : List Byte) ++ q).flatten = q.flatten := by
  induction k with
  | zero => simp
  | succ k ih => simp [List.replicate_succ]

/-- Claim C2: over the pipe, when the frames in flight towards end `s` are `k`
empty frames and then a frame that starts with the byte 42, `AcceptStream` at `s`
(with room for more than `k` iterations) returns the wrapped stream after `k + 1`
reads of one byte.  It has taken exactly the marker from the bytes in flight:
what was in flight is 42 followed by what is in flight afterwards.  A reader of
the returned stream that reads to the end, once the peer has closed, gets
exactly the bytes after the marker. -/
theorem C2_marker_consumed (s : Side) (p : Pipe) (log : List (Call Side Side)) (k fuel : Nat)
    (c : List Byte) (rest : List (List Byte))
    (hin : p.inbound s = List.replicate k [] ++ (42 :: c) :: rest) (hfuel : k < fuel) :
    (WrapMux (some s)).AcceptStream pipeEngine fuel (World.mk p log) =
        .ret ((some (NewMuxedStream (some s)), none),
          World.mk (p.setInbound s (if c = [] then rest else c :: rest))
            (log ++ Call.acceptStream s :: List.replicate (k + 1) (Call.read s 1)),
          WrapMux (some s)) ∧
      p.content s = 42 :: (p.setInbound s (if c = [] then rest else c :: rest)).content s ∧
      (p.setInbound s (if c = [] then rest else c :: rest)).content s = c ++ rest.flatten ∧
      ∀ (p2 : Pipe) (log2 : List (Call Side Side)) (bufLen rfuel : Nat),
        p2.inbound s = (p.setInbound s (if c = [] then rest else c :: rest)).inbound s →
        p2.closedBy s.peer = true → 0 < bufLen → readBound (p2.inbound s) < rfuel →
        ∃ w2, ReadAll pipeEngine rfuel (World.mk p2 log2) (NewMuxedStream (some s)) bufLen [] =
          .ret ((c ++ rest.flatten, none), w2) := by
  have haccept : pipeEngine.AcceptStream p s = some ((some s, none), p) := by
    have hne : p.inbound s ≠ [] := by
      rw [hin]
      simp
    simp [pipeEngine, hne]
  have hempty := Pipe.readResults_empty s ((42 :: c) :: rest) k p hin
  have hstk : (p.setInbound s ((42 :: c) :: rest)).inbound s = (42 :: c) :: rest :=
    Pipe.inbound_setInbound _ _ _
  have hbyte : pipeEngine.Read (p.setInbound s ((42 :: c) :: rest)) s 1 =
      some (⟨[42], none⟩, p.setInbound s (if c = [] then rest else c :: rest)) := by
    by_cases hc : c = []
    · subst hc
      simp [pipeEngine, Pipe.read, hstk, Pipe.setInbound_setInbound]
    · simp [pipeEngine, Pipe.read, hstk, hc, Pipe.setInbound_setInbound]
  have hrun := AcceptStream_marker pipeEngine (World.mk p log) (WrapMux (some s)) s s p _ _ k fuel
    rfl rfl haccept hempty hbyte hfuel
  have hcontent : (p.setInbound s (if c = [] then rest else c :: rest)).content s =
      c ++ rest.flatten := by
    rw [Pipe.content, Pipe.inbound_setInbound]
    by_cases hc : c = []
    · simp [hc]
    · simp [hc]
  refine ⟨hrun, ?_, hcontent, ?_⟩
  · rw [hcontent, Pipe.content, hin, flatten_replicate_nil]
    simp
  · intro p2 log2 bufLen rfuel hsame hclosed hpos hrfuel
    obtain ⟨w2, hw2⟩ := ReadAll_pipe s bufLen hpos (readBound (p2.inbound s)) p2 log2 [] rfuel
      (Nat.le_refl _) hrfuel hclosed
    refine ⟨w2, ?_⟩
    rw [hw2, Pipe.content, hsame, ← Pipe.content, hcontent]
    simp

/-- Witness of C2: two empty frames, then the marker in one frame with the
bytes 7 and 8, then a frame with the byte 9; the peer has closed. -/
theorem C2_marker_consumed_witness :
    (WrapMux (some Side.B)).AcceptStream pipeEngine 3
        (World.mk (Pipe.mk [] [[], [], [42, 7, 8], [9]] true false) []) =
        .ret ((some (NewMuxedStream (some Side.B)), none),
          World.mk (Pipe.mk [] [[7, 8], [9]] true false)
            [Call.acceptStream Side.B, Call.read Side.B 1, Call.read Side.B 1,
              Call.read Side.B 1],
          WrapMux (some Side.B)) ∧
      ∃ w2, ReadAll pipeEngine 6 (World.mk (Pipe.mk [] [[7, 8], [9]] true false) [])
        (NewMuxedStream (some Side.B)) 2 [] = .ret (([7, 8, 9], none), w2) :=
  have h := C2_marker_consumed Side.B (Pipe.mk [] [[], [], [42, 7, 8], [9]] true false) [] 2 3
    [7, 8] [[9]] rfl (by decide)
  ⟨h.1, h.2.2.2 (Pipe.mk [] [[7, 8], [9]] true false) [] 2 6 rfl rfl (by decide) (by decide)⟩

/-- Over the pipe the establishing goroutine of a connection made by
`NewMuxedConn` at end `s` reaches the state `WrapMux (some s)`. -/
theorem establish_pipe (s : Side) (outbound : Bool) (w : World Pipe Side Side) :
    (NewMuxedConn : MuxedConn Side).establish pipeEngine w s outbound =
      .ret (w, WrapMux (some s)) := by
  cases outbound <;> rfl

/-- Claim C4: over the pipe, with both connections established, `OpenStream`
at end `A` and `AcceptStream` at end `B` both return a stream, and the marker is
gone from the pipe.  When then `A` writes `dA` and `B` writes `dB`: if `B` closes
its stream, `A` reading to the end gets exactly `dB`; if `A` closes its stream,
`B` reading to the end gets exactly `dA`, without the marker in front. -/
theorem C4_round_trip (dA dB : List Byte) (bufLen fuelA fuelB : Nat) (hpos : 0 < bufLen)
    (hfA : dB.length + 1 < fuelA) (hfB : dA.length + 1 < fuelB) :
    ∃ w1 w2 w3 w4,
      (WrapMux (some Side.A)).OpenStream pipeEngine (pipeWorld Pipe.empty) false false =
        .ret ((some (NewMuxedStream (some Side.A)), none), w1, WrapMux (some Side.A)) ∧
      (WrapMux (some Side.B)).AcceptStream pipeEngine 1 w1 =
        .ret ((some (NewMuxedStream (some Side.B)), none), w2, WrapMux (some Side.B)) ∧
      w2.st = Pipe.empty ∧
      (NewMuxedStream (some Side.A)).Write pipeEngine w2 dA = .ret ((dA.length, none), w3) ∧
      (NewMuxedStream (some Side.B)).Write pipeEngine w3 dB = .ret ((dB.length, none), w4) ∧
      (∃ w5 sB w6,
        (NewMuxedStream (some Side.B)).Close pipeEngine w4 = (.ret none, w5, sB) ∧
        ReadAll pipeEngine fuelA w5 (NewMuxedStream (some Side.A)) bufLen [] =
          .ret ((dB, none), w6)) ∧
      (∃ w5 sA w6,
        (NewMuxedStream (some Side.A)).Close pipeEngine w4 = (.ret none, w5, sA) ∧
        ReadAll pipeEngine fuelB w5 (NewMuxedStream (some Side.B)) bufLen [] =
          .ret ((dA, none), w6)) := by
  have hA := ReadAll_pipe Side.A bufLen hpos (dB.length + 1)
    (Pipe.mk [dB] [dA] false true)
    ([Call.dialStream Side.A, Call.write Side.A openStreamMsg, Call.acceptStream Side.B,
      Call.read Side.B 1, Call.write Side.A dA, Call.write Side.B dB, Call.closeStream Side.B])
    [] fuelA (by simp [readBound, Pipe.inbound]) hfA rfl
  have hB := ReadAll_pipe Side.B bufLen hpos (dA.length + 1)
    (Pipe.mk [dB] [dA] true false)
    ([Call.dialStream Side.A, Call.write Side.A openStreamMsg, Call.acceptStream Side.B,
      Call.read Side.B 1, Call.write Side.A dA, Call.write Side.B dB, Call.closeStream Side.A])
    [] fuelB (by simp [readBound, Pipe.inbound]) hfB rfl
  obtain ⟨w6A, hA⟩ := hA
  obtain ⟨w6B, hB⟩ := hB
  simp only [Pipe.content, Pipe.inbound, List.flatten_cons, List.flatten_nil, List.append_nil,
    List.nil_append] at hA hB
  refine ⟨World.mk (Pipe.mk [] [[42]] false false)
      [Call.dialStream Side.A, Call.write Side.A openStreamMsg],
    World.mk Pipe.empty
      [Call.dialStream Side.A, Call.write Side.A openStreamMsg, Call.acceptStream Side.B,
        Call.read Side.B 1],
    World.mk (Pipe.mk [] [dA] false false)
      [Call.dialStream Side.A, Call.write Side.A openStreamMsg, Call.acceptStream Side.B,
        Call.read Side.B 1, Call.write Side.A dA],
    World.mk (Pipe.mk [dB] [dA] false false)
      [Call.dialStream Side.A, Call.write Side.A openStreamMsg, Call.acceptStream Side.B,
        Call.read Side.B 1, Call.write Side.A dA, Call.write Side.B dB],
    rfl, rfl, rfl, rfl, rfl, ?_, ?_⟩
  · exact ⟨_, _, w6A, rfl, hA⟩
  · exact ⟨_, _, w6B, rfl, hB⟩

/-- Witness of C4: the scenario of `TestSiaMux`.  The client writes `"hello"`,
the server writes `"hello world from server"` and closes, and the client, reading
to the end with buffers of 512 bytes, gets exactly the server's bytes. -/
theorem C4_round_trip_witness :
    ∃ w1 w2 w3 w4,
      (WrapMux (some Side.A)).OpenStream pipeEngine (pipeWorld Pipe.empty) false false =
        .ret ((some (NewMuxedStream (some Side.A)), none), w1, WrapMux (some Side.A)) ∧
      (WrapMux (some Side.B)).AcceptStream pipeEngine 1 w1 =
        .ret ((some (NewMuxedStream (some Side.B)), none), w2, WrapMux (some Side.B)) ∧
      w2.st = Pipe.empty ∧
      (NewMuxedStream (some Side.A)).Write pipeEngine w2 helloBytes =
        .ret ((helloBytes.length, none), w3) ∧
      (NewMuxedStream (some Side.B)).Write pipeEngine w3 serverBytes =
        .ret ((serverBytes.length, none), w4) ∧
      (∃ w5 sB w6,
        (NewMuxedStream (some Side.B)).Close pipeEngine w4 = (.ret none, w5, sB) ∧
        ReadAll pipeEngine 30 w5 (NewMuxedStream (some Side.A)) 512 [] =
          .ret ((serverBytes, none), w6)) ∧
      (∃ w5 sA w6,
        (NewMuxedStream (some Side.A)).Close pipeEngine w4 = (.ret none, w5, sA) ∧
        ReadAll pipeEngine 30 w5 (NewMuxedStream (some Side.B)) 512 [] =
          .ret ((helloBytes, none), w6)) :=
  C4_round_trip helloBytes serverBytes 512 30 30 (by decide) (by decide) (by decide)

end Siamux
